import Mathlib

/-!
# hcp-to-minio: the concurrent migration pipeline of `load.go`

A shallow embedding of `src/load.go`: the transfer operation `migrateObject`, the
migration controller (`newMigrationState`, `init`, `queueUploadTask`, `finish`), the
worker goroutines started by `addWorker` and the failure-ledger goroutine started by
`init`.

Goroutines are embedded as control points; one `Action` is one atomic statement of one
goroutine (a channel operation, an atomic add, a call of an external service), and a run
is a list of actions, so every interleaving of the goroutines is a run.  What the
external world decides (the answers of the HCP source and of the MinIO destination, the
results of the file operations, the choice `select` makes when several cases are ready,
the moment the context is cancelled) is carried by the action.
-/

namespace HcpToMinio

/-! ## Data model -/

/-- A Go `error`, represented by its message. -/
abbrev Error := String

/-- The `io.ReadCloser` returned by `hcp.GetObject`, identified by a handle. -/
structure Reader where
  handle : Nat
deriving DecidableEq, Repr

/-- The fields of the object info returned by `hcp.GetObject` that `migrateObject` reads. -/
structure ObjectInfo where
  Key : String
  Size : Int
  ContentType : String
  UserMetadata : List (String × String)
  ETag : String
  LastModified : Int
deriving DecidableEq, Repr

/-- The type `miniogo.AdvancedPutOptions`, restricted to the fields `migrateObject` sets. -/
structure AdvancedPutOptions where
  SourceETag : String
  SourceMTime : Int
deriving DecidableEq, Repr

/-- The type `miniogo.PutObjectOptions`, restricted to the fields `migrateObject` sets. -/
structure PutObjectOptions where
  ContentType : String
  UserMetadata : List (String × String)
  Internal : AdvancedPutOptions
deriving DecidableEq, Repr

/-- Effects on the world outside the process, in the order they happen: the calls of the
two external services, of `r.Close()`, and of the logging helpers `logMsg` and `logDMsg`
(declared outside `load.go`). -/
inductive Event where
  | getObject (object annotationName : String)
  | putObject (bucket key : String) (r : Reader) (size : Int) (opts : PutObjectOptions)
  | close (r : Reader)
  | logMsg (msg : String)
  | logDMsg (msg : String) (err : Option Error)
  /-- The call `logMsg(fmt.Sprintf(format, err))` whose format has no verb for `err`. -/
  | logSprintf (format : String) (err : Error)
deriving DecidableEq, Repr

/-- The package-level variables read by `load.go` and the helper `migrateMsg`, all of
them declared outside `load.go`. -/
structure Config where
  dryRun : Bool
  annotationName : String
  minioBucket : String
  migrateMsg : String → String → String

/-- The answers of the two external services during one transfer: `hcp.GetObject`
(the third result, which `migrateObject` discards, is left out) and
`minioClient.PutObject` (the upload info, which `migrateObject` discards, is left out). -/
structure Services where
  GetObject : String → String → Except Error (Reader × ObjectInfo)
  PutObject : String → String → Reader → Int → PutObjectOptions → Option Error

/-! ## The transfer operation -/

/-- The options literal built by `migrateObject` for `minioClient.PutObject`. -/
def putOptions (oi : ObjectInfo) : PutObjectOptions :=
  { ContentType := oi.ContentType
    UserMetadata := oi.UserMetadata
    Internal := { SourceETag := oi.ETag, SourceMTime := oi.LastModified } }

/-- The function `migrateObject` of `load.go`: the effects it performs, in order, and the
error it returns (`none` is Go's `nil`).  The deferred `r.Close()` runs last on every
path that got past the resolution. -/
def migrateObject (cfg : Config) (sv : Services) (object : String) :
    List Event × Option Error :=
  match sv.GetObject object cfg.annotationName with
  | .error err => ([.getObject object cfg.annotationName], some err)
  | .ok (r, oi) =>
    if cfg.dryRun then
      ([.getObject object cfg.annotationName,
        .logMsg (cfg.migrateMsg object oi.Key),
        .close r], none)
    else
      match sv.PutObject cfg.minioBucket oi.Key r oi.Size (putOptions oi) with
      | some err =>
        ([.getObject object cfg.annotationName,
          .putObject cfg.minioBucket oi.Key r oi.Size (putOptions oi),
          .logDMsg ("upload to minio client failed for " ++ oi.Key) (some err),
          .close r], some err)
      | none =>
        ([.getObject object cfg.annotationName,
          .putObject cfg.minioBucket oi.Key r oi.Size (putOptions oi),
          .logDMsg ("Uploaded " ++ oi.Key ++ " successfully") none,
          .close r], none)

/-- The identifier, when `hcp.GetObject` fails to resolve it (and nothing otherwise): what
one transfer adds to the history of resolution failures. -/
def resolutionFailure (cfg : Config) (sv : Services) (object : String) : List String :=
  match sv.GetObject object cfg.annotationName with
  | .error _ => [object]
  | .ok _ => []

/-- Is the event a call of `hcp.GetObject`? -/
def Event.isGet : Event → Bool
  | .getObject _ _ => true
  | _ => false

/-- Is the event a call of `minioClient.PutObject`? -/
def Event.isPut : Event → Bool
  | .putObject _ _ _ _ _ => true
  | _ => false

/-! ## Channels -/

/-- A Go `chan string` made with capacity `cap`. -/
structure Chan where
  buf : List String
  cap : Nat
  closed : Bool
deriving DecidableEq, Repr

/-- The outcome of attempting `ch <- x`. -/
inductive SendResult where
  | sent (ch : Chan)
  | blocked
  | panic
deriving DecidableEq, Repr

/-- The outcome of attempting `x, ok := <-ch`. -/
inductive RecvResult where
  | value (x : String) (ch : Chan)
  | closed
  | blocked
deriving DecidableEq, Repr

/-- The call `make(chan string, n)`. -/
def Chan.make (n : Nat) : Chan := { buf := [], cap := n, closed := false }

/-- The statement `ch <- x`: a panic on a closed channel, otherwise it proceeds when the
buffer has room.  (A channel of capacity 0 exists only when no worker was launched, and
then it has no receiver either, so a send on it never proceeds.) -/
def Chan.send (ch : Chan) (x : String) : SendResult :=
  if ch.closed then .panic
  else if ch.buf.length < ch.cap then .sent { ch with buf := ch.buf ++ [x] }
  else .blocked

/-- The expression `<-ch` with the `ok` flag: the oldest buffered value, or `ok = false`
once the channel is closed and drained. -/
def Chan.recv (ch : Chan) : RecvResult :=
  match ch.buf with
  | x :: rest => .value x { ch with buf := rest }
  | [] => if ch.closed then .closed else .blocked

/-- The call `close(ch)`; `none` is the panic on closing a closed channel. -/
def Chan.close (ch : Chan) : Option Chan :=
  if ch.closed then none else some { ch with closed := true }

/-! ## The migration state and the goroutines -/

/-- The struct `migrateState`: the two channels, the two `uint64` counters and the
counter of the `sync.WaitGroup`. -/
structure migrateState where
  objectCh : Chan
  failedCh : Chan
  count : Nat
  failCnt : Nat
  wg : Nat
deriving DecidableEq, Repr

/-- Control points of the goroutine started by `addWorker`. -/
inductive Worker where
  /-- At the `select` at the top of the loop. -/
  | select
  /-- Received `obj`; `migrateObject` has not returned yet. -/
  | migrating (obj : String)
  /-- The call `migrateObject` returned `err`; before `m.incFailCount()`. -/
  | failed (obj : String) (err : Error)
  /-- After `m.incFailCount()` and the log line; at `m.failedCh <- obj`. -/
  | sending (obj : String)
  /-- The call `migrateObject` returned `nil`; before `m.incCount()`. -/
  | succeeded
  /-- Returned; the deferred `m.wg.Done()` has run. -/
  | done
deriving DecidableEq, Repr

/-- Control points of the ledger goroutine started by `init`. -/
inductive Writer where
  /-- Not started yet (before `init`). -/
  | unspawned
  /-- Before `os.OpenFile`. -/
  | opening
  /-- At the `select` at the top of the loop, the file open. -/
  | select
  /-- Received `obj`; before `f.WriteString(obj + "\n")`. -/
  | writing (obj : String)
  /-- Returned. -/
  | done
deriving DecidableEq, Repr

/-- Modelled from the spec: the caller of `load.go` (the listing producer, whose code is
not in `load.go`) feeds a finite sequence of identifiers, one `queueUploadTask` each, and
the end of the sequence is its signal to call `finish`; it never submits after `finish`
has started.  These are its control points, those inside `finish` included. -/
inductive Main where
  /-- The identifiers still to submit; with none left, `finish` is entered. -/
  | submit (rest : List String)
  /-- In `finish`, after `close(m.objectCh)`: at `m.wg.Wait()`. -/
  | waiting
  /-- In `finish`, after `m.wg.Wait()`: before `close(m.failedCh)`. -/
  | closing
  /-- In `finish`, after `close(m.failedCh)`: before the summary. -/
  | logging
  /-- The call `finish` has returned. -/
  | returned
deriving DecidableEq, Repr

/-- Ways the process dies. -/
inductive Crash where
  | panic (msg : String)
  | exit (code : Nat)
deriving DecidableEq, Repr

/-- The whole process.  `transfers`, `enqueued` and `unresolved` are history variables:
they record what happened and are never read by a step. -/
structure System where
  /-- The package variable `migrationConcurrent`. -/
  migrationConcurrent : Int
  m : migrateState
  workers : List Worker
  writer : Writer
  main : Main
  /-- Whether `ctx.Done()` is closed. -/
  cancelled : Bool
  /-- The content of the ledger file once this run has opened (and truncated) it. -/
  ledgerFile : Option String
  crashed : Option Crash
  /-- The effects on the outside world so far. -/
  out : List Event
  /-- History: every completed call of `migrateObject`, with its result. -/
  transfers : List (String × Option Error)
  /-- History: every identifier sent on `failedCh`, in the order of the sends. -/
  enqueued : List String
  /-- History: every identifier whose `hcp.GetObject` call returned an error, in the order
  the transfers completed. -/
  unresolved : List String

/-- The function `newMigrationState`: `migrationConcurrent` is raised to
`runtime.GOMAXPROCS(0)` when that is larger, and both channels get that capacity
(`runtime.GOMAXPROCS(0)` is at least 1, so the capacity is positive).  The result is the
process right after the call, no goroutine started, with `input` the identifiers the
caller is going to submit. -/
def newMigrationState (gomaxprocs migrationConcurrent : Int) (input : List String) :
    System :=
  let mc := if gomaxprocs > migrationConcurrent then gomaxprocs else migrationConcurrent
  { migrationConcurrent := mc
    m := { objectCh := Chan.make mc.toNat, failedCh := Chan.make mc.toNat,
           count := 0, failCnt := 0, wg := 0 }
    workers := []
    writer := .unspawned
    main := .submit input
    cancelled := false
    ledgerFile := none
    crashed := none
    out := []
    transfers := []
    enqueued := []
    unresolved := [] }

/-- The method `addWorker`: `m.wg.Add(1)` and a new goroutine at the top of its loop. -/
def addWorker (s : System) : System :=
  { s with m := { s.m with wg := s.m.wg + 1 }, workers := s.workers ++ [Worker.select] }

/-- The method `init` on the (non-nil) state made by `newMigrationState`: the loop
`for i := 0; i < migrationConcurrent; i++` calls `addWorker`, then the ledger goroutine
is started. -/
def init (s : System) : System :=
  let s1 := (List.range s.migrationConcurrent.toNat).foldl (fun acc _ => addWorker acc) s
  { s1 with writer := .opening }

/-- The process after `newMigrationState` and `init`, about to submit `input`. -/
def boot (gomaxprocs migrationConcurrent : Int) (input : List String) : System :=
  init (newMigrationState gomaxprocs migrationConcurrent input)

/-- The call `atomic.AddUint64(p, 1)` on a counter holding `x`. -/
def addUint64 (x : Nat) : Nat := (x + 1) % 2 ^ 64

/-- The method `incCount`. -/
def incCount (m : migrateState) : migrateState := { m with count := addUint64 m.count }

/-- The method `getCount`. -/
def getCount (m : migrateState) : Nat := m.count

/-- The method `incFailCount`. -/
def incFailCount (m : migrateState) : migrateState :=
  { m with failCnt := addUint64 m.failCnt }

/-- The method `getFailCount`. -/
def getFailCount (m : migrateState) : Nat := m.failCnt

/-- The process dies with a panic. -/
def System.panic (s : System) (msg : String) : System :=
  { s with crashed := some (.panic msg) }

/-- The summary line logged by `finish`. -/
def summary (count failCnt : Nat) : String :=
  "Migrated " ++ toString count ++ " objects, " ++ toString failCnt ++ " failures"

/-! ## Steps -/

/-- The method `queueUploadTask`: `m.objectCh <- obj`; `rest` is what the caller submits
after it. -/
def queueUploadTask (s : System) (obj : String) (rest : List String) : Option System :=
  match s.m.objectCh.send obj with
  | .sent ch => some { s with m := { s.m with objectCh := ch }, main := .submit rest }
  | .blocked => none
  | .panic => some (s.panic "send on closed channel")

/-- The method `finish`, one statement a step: `close(m.objectCh)`, `m.wg.Wait()`,
`close(m.failedCh)`, and the summary, logged only when `dryRun` is false. -/
def finish (cfg : Config) (s : System) : Option System :=
  match s.main with
  | .submit _ =>
    match s.m.objectCh.close with
    | some ch => some { s with m := { s.m with objectCh := ch }, main := .waiting }
    | none => some (s.panic "close of closed channel")
  | .waiting => if s.m.wg = 0 then some { s with main := .closing } else none
  | .closing =>
    match s.m.failedCh.close with
    | some ch => some { s with m := { s.m with failedCh := ch }, main := .logging }
    | none => some (s.panic "close of closed channel")
  | .logging =>
    if cfg.dryRun then some { s with main := .returned }
    else some { s with out := s.out ++ [.logMsg (summary (getCount s.m) (getFailCount s.m))],
                       main := .returned }
  | .returned => none

/-- Modelled from the spec: one step of the caller, which is the next `queueUploadTask`
while identifiers are left and the next statement of `finish` after that. -/
def mainStep (cfg : Config) (s : System) : Option System :=
  match s.main with
  | .submit (obj :: rest) => queueUploadTask s obj rest
  | _ => finish cfg s

/-- What a worker goroutine may do next. -/
inductive WorkerAction where
  /-- The `select` takes `case <-ctx.Done()`. -/
  | ctxDone
  /-- The `select` takes `case obj, ok := <-m.objectCh`. -/
  | recv
  /-- The call `migrateObject(ctx, obj)` runs, the services answering as `sv`. -/
  | migrate (sv : Services)
  /-- The next statement after `migrateObject` returned. -/
  | next

/-- A worker returns: the deferred `m.wg.Done()` runs. -/
def workerReturn (s : System) (i : Nat) : System :=
  if s.m.wg = 0 then s.panic "sync: negative WaitGroup counter"
  else { s with m := { s.m with wg := s.m.wg - 1 }, workers := s.workers.set i Worker.done }

/-- One step of worker `i`: the loop body of the goroutine of `addWorker`. -/
def workerStep (cfg : Config) (s : System) (i : Nat) (a : WorkerAction) : Option System :=
  match s.workers[i]?, a with
  | some .select, .ctxDone => if s.cancelled then some (workerReturn s i) else none
  | some .select, .recv =>
    match s.m.objectCh.recv with
    | .value obj ch =>
      some { s with m := { s.m with objectCh := ch }
                    workers := s.workers.set i (.migrating obj)
                    out := s.out ++ [.logDMsg ("Migrating..." ++ obj) none] }
    | .closed => some (workerReturn s i)
    | .blocked => none
  | some (.migrating obj), .migrate sv =>
    match migrateObject cfg sv obj with
    | (evs, some err) =>
      some { s with workers := s.workers.set i (.failed obj err)
                    out := s.out ++ evs
                    transfers := s.transfers ++ [(obj, some err)]
                    unresolved := s.unresolved ++ resolutionFailure cfg sv obj }
    | (evs, none) =>
      some { s with workers := s.workers.set i .succeeded
                    out := s.out ++ evs
                    transfers := s.transfers ++ [(obj, none)]
                    unresolved := s.unresolved ++ resolutionFailure cfg sv obj }
  | some (.failed obj err), .next =>
    some { s with m := incFailCount s.m
                  workers := s.workers.set i (.sending obj)
                  out := s.out ++ [.logMsg ("error migrating object " ++ obj ++ ": " ++ err)] }
  | some (.sending obj), .next =>
    match s.m.failedCh.send obj with
    | .sent ch =>
      some { s with m := { s.m with failedCh := ch }
                    workers := s.workers.set i .select
                    enqueued := s.enqueued ++ [obj] }
    | .blocked => none
    | .panic => some (s.panic "send on closed channel")
  | some .succeeded, .next =>
    some { s with m := incCount s.m
                  workers := s.workers.set i .select }
  | _, _ => none

/-- What the ledger goroutine may do next. -/
inductive WriterAction where
  /-- The call `os.OpenFile` returns, with `err`. -/
  | openFile (err : Option Error)
  /-- The `select` takes `case <-ctx.Done()`. -/
  | ctxDone
  /-- The `select` takes `case obj, ok := <-m.failedCh`. -/
  | recv
  /-- The call `f.WriteString(obj + "\n")` returns, with `err`. -/
  | write (err : Option Error)

/-- One step of the ledger goroutine started by `init`.  The file is opened with
`O_TRUNC`; every record is written straight to the file (the `bufio.Writer` is never
written to, so the deferred `Flush` and `Close` change nothing). -/
def writerStep (s : System) (a : WriterAction) : Option System :=
  match s.writer, a with
  | .opening, .openFile none => some { s with ledgerFile := some "", writer := .select }
  | .opening, .openFile (some err) =>
    some { s with out := s.out ++ [.logDMsg "could not create + failMigFile" (some err)]
                  writer := .done }
  | .select, .ctxDone => if s.cancelled then some { s with writer := .done } else none
  | .select, .recv =>
    match s.m.failedCh.recv with
    | .value obj ch => some { s with m := { s.m with failedCh := ch }, writer := .writing obj }
    | .closed => some { s with writer := .done }
    | .blocked => none
  | .writing obj, .write none =>
    some { s with ledgerFile := s.ledgerFile.map (fun text => text ++ (obj ++ "\n"))
                  writer := .select }
  | .writing obj, .write (some err) =>
    some { s with out := s.out ++
                    [.logSprintf ("Error writing to migration_fails.txt for " ++ obj) err]
                  crashed := some (.exit 1) }
  | _, _ => none

/-- One atomic step of the process. -/
inductive Action where
  /-- The context is cancelled: `ctx.Done()` is closed. -/
  | cancel
  | main
  | worker (i : Nat) (a : WorkerAction)
  | writer (a : WriterAction)

/-- The step function: `none` when the action cannot proceed in `s` (the goroutine is
somewhere else, or blocked, or the process is dead). -/
def step (cfg : Config) (s : System) (a : Action) : Option System :=
  if s.crashed.isSome then none
  else
    match a with
    | .cancel => if s.cancelled then none else some { s with cancelled := true }
    | .main => mainStep cfg s
    | .worker i a => workerStep cfg s i a
    | .writer a => writerStep s a

/-- A run: the actions taken one after the other, `none` when one cannot proceed. -/
def run (cfg : Config) (s : System) : List Action → Option System
  | [] => some s
  | a :: rest => (step cfg s a).bind (fun t => run cfg t rest)

/-! ## Measures used by the invariants -/

/-- The worker has not returned: it still holds one unit of the wait group. -/
def Worker.live : Worker → Nat
  | .done => 0
  | _ => 1

/-- The worker has returned. -/
def Worker.finished : Worker → Nat
  | .done => 1
  | _ => 0

/-- The worker holds an identifier it received and has not counted yet. -/
def Worker.inflight : Worker → Nat
  | .migrating _ => 1
  | .failed _ _ => 1
  | .succeeded => 1
  | _ => 0

/-- The worker is about to call `m.incCount()`. -/
def Worker.okPending : Worker → Nat
  | .succeeded => 1
  | _ => 0

/-- The worker is about to call `m.incFailCount()`. -/
def Worker.errPending : Worker → Nat
  | .failed _ _ => 1
  | _ => 0

/-- The worker has counted a failure and not sent it on `failedCh` yet. -/
def Worker.sendPending : Worker → Nat
  | .sending _ => 1
  | _ => 0

/-- The sum of a measure over the workers. -/
def total (f : Worker → Nat) (ws : List Worker) : Nat := (ws.map f).sum

/-- The identifiers the caller has not submitted yet. -/
def Main.rest : Main → List String
  | .submit rest => rest
  | _ => []

/-- The caller has entered `finish` and closed `objectCh`. -/
def Main.finishing : Main → Bool
  | .submit _ => false
  | _ => true

/-- The caller is past `m.wg.Wait()`. -/
def Main.pastWait : Main → Bool
  | .closing => true
  | .logging => true
  | .returned => true
  | _ => false

/-- The caller is past `close(m.failedCh)`. -/
def Main.pastClose : Main → Bool
  | .logging => true
  | .returned => true
  | _ => false

/-- The identifier the ledger goroutine has received and not written yet. -/
def Writer.pending : Writer → List String
  | .writing obj => [obj]
  | _ => []

/-- The text of a ledger holding the records `ids`: each identifier followed by a
newline. -/
def ledgerText : List String → String
  | [] => ""
  | obj :: rest => (obj ++ "\n") ++ ledgerText rest

/-- The number of recorded transfers that returned `nil`. -/
def okTransfers (ts : List (String × Option Error)) : Nat :=
  ts.countP (fun t => t.2.isNone)

/-- The number of recorded transfers that returned an error. -/
def errTransfers (ts : List (String × Option Error)) : Nat :=
  ts.countP (fun t => t.2.isSome)

/-- The shutdown invariant: the wait group counts the workers that have not returned,
the caller gets past `m.wg.Wait()` only with every worker returned, each channel is
closed exactly from the point of `finish` that closes it, and nothing has panicked. -/
structure Shutdown (s : System) : Prop where
  wg_live : s.m.wg = total Worker.live s.workers
  past_wait : s.main.pastWait = true → s.m.wg = 0
  past_close : s.main.pastClose = true → s.m.wg = 0
  failed_closed : s.m.failedCh.closed = s.main.pastClose
  object_closed : s.m.objectCh.closed = s.main.finishing
  no_panic : ∀ msg, s.crashed ≠ some (Crash.panic msg)

/-- The accounting invariant of a run over `n` identifiers: every identifier is still to
be submitted, or in `objectCh`, or held by a worker, or counted in exactly one counter;
and the counters agree with the recorded transfers and sends. -/
structure Accounting (n : Nat) (s : System) : Prop where
  account : s.main.rest.length + s.m.objectCh.buf.length + total Worker.inflight s.workers
      + s.m.count + s.m.failCnt = n
  ok_count : s.m.count + total Worker.okPending s.workers = okTransfers s.transfers
  err_count : s.m.failCnt + total Worker.errPending s.workers = errTransfers s.transfers
  sent_count : s.m.failCnt = s.enqueued.length + total Worker.sendPending s.workers

/-- The drain invariant: `objectCh` holds at most as many identifiers as there are workers,
and, without cancellation, once a worker has returned `objectCh` is closed and empty. -/
structure Drain (s : System) : Prop where
  object_cap : s.m.objectCh.cap = s.workers.length
  object_room : s.m.objectCh.buf.length ≤ s.m.objectCh.cap
  object_drained : s.cancelled = false → 0 < total Worker.finished s.workers →
      s.m.objectCh.closed = true ∧ s.m.objectCh.buf = []

/-- The ledger invariant: the file, followed by the records still on their way to it, is
the text of everything sent on `failedCh`; and, without cancellation, the ledger
goroutine that opened the file returns only with `failedCh` closed and empty. -/
structure Ledger (s : System) : Prop where
  ledger : ∀ text, s.ledgerFile = some text →
      text ++ ledgerText (s.writer.pending ++ s.m.failedCh.buf) = ledgerText s.enqueued
  unopened : s.writer = Writer.opening → s.m.failedCh.buf = s.enqueued
  unopened_file : s.writer = Writer.opening → s.ledgerFile = none
  writer_done : s.writer = Writer.done → s.cancelled = false → s.ledgerFile.isSome = true →
      s.m.failedCh.closed = true ∧ s.m.failedCh.buf = []

/-- The summary invariant: once a real run has returned from `finish`, the summary with
the current values of the counters has been logged. -/
structure Summary (cfg : Config) (s : System) : Prop where
  summary_logged : s.main = Main.returned → cfg.dryRun = false →
      Event.logMsg (summary (getCount s.m) (getFailCount s.m)) ∈ s.out

/-- The invariant of a run over `n` identifiers. -/
structure Inv (cfg : Config) (n : Nat) (s : System) : Prop where
  shutdown : Shutdown s
  accounting : Accounting n s
  drain : Drain s
  ledger : Ledger s
  summary : Summary cfg s

/-- The transitions of `step`, one constructor for each way a step can proceed, with the
conditions under which it proceeds.  It is used to reason by cases on a step
(`step_trans`); the runs themselves are those of `step`. -/
inductive Trans (cfg : Config) (s : System) : System → Prop where
  | cancel (hc : s.cancelled = false) : Trans cfg s { s with cancelled := true }
  | submit (obj : String) (rest : List String) (hm : s.main = Main.submit (obj :: rest))
      (hcl : s.m.objectCh.closed = false) (hlt : s.m.objectCh.buf.length < s.m.objectCh.cap) :
      Trans cfg s
        { s with m := { s.m with objectCh := { buf := s.m.objectCh.buf ++ [obj]
                                               cap := s.m.objectCh.cap, closed := false } }
                 main := Main.submit rest }
  | submitPanic (obj : String) (rest : List String)
      (hm : s.main = Main.submit (obj :: rest)) (hcl : s.m.objectCh.closed = true) :
      Trans cfg s (s.panic "send on closed channel")
  | closeObject (hm : s.main = Main.submit []) (hcl : s.m.objectCh.closed = false) :
      Trans cfg s
        { s with m := { s.m with objectCh := { buf := s.m.objectCh.buf
                                               cap := s.m.objectCh.cap, closed := true } }
                 main := Main.waiting }
  | closeObjectPanic (hm : s.main = Main.submit []) (hcl : s.m.objectCh.closed = true) :
      Trans cfg s (s.panic "close of closed channel")
  | wait (hm : s.main = Main.waiting) (hwg : s.m.wg = 0) :
      Trans cfg s { s with main := Main.closing }
  | closeFailed (hm : s.main = Main.closing) (hcl : s.m.failedCh.closed = false) :
      Trans cfg s
        { s with m := { s.m with failedCh := { buf := s.m.failedCh.buf
                                               cap := s.m.failedCh.cap, closed := true } }
                 main := Main.logging }
  | closeFailedPanic (hm : s.main = Main.closing) (hcl : s.m.failedCh.closed = true) :
      Trans cfg s (s.panic "close of closed channel")
  | logDry (hm : s.main = Main.logging) (hd : cfg.dryRun = true) :
      Trans cfg s { s with main := Main.returned }
  | logReal (hm : s.main = Main.logging) (hd : cfg.dryRun = false) :
      Trans cfg s
        { s with out := s.out ++ [Event.logMsg (summary (getCount s.m) (getFailCount s.m))]
                 main := Main.returned }
  | workerReturn (i : Nat) (hcause : s.cancelled = true ∨
        (s.m.objectCh.closed = true ∧ s.m.objectCh.buf = []))
      (hwg : ¬ s.m.wg = 0) (hw : s.workers[i]? = some Worker.select) :
      Trans cfg s
        { s with m := { s.m with wg := s.m.wg - 1 }, workers := s.workers.set i Worker.done }
  | workerReturnPanic (i : Nat) (hwg : s.m.wg = 0) (hw : s.workers[i]? = some Worker.select) :
      Trans cfg s (s.panic "sync: negative WaitGroup counter")
  | workerRecv (i : Nat) (obj : String) (rest : List String)
      (hb : s.m.objectCh.buf = obj :: rest) (hw : s.workers[i]? = some Worker.select) :
      Trans cfg s
        { s with m := { s.m with objectCh := { s.m.objectCh with buf := rest } }
                 workers := s.workers.set i (Worker.migrating obj)
                 out := s.out ++ [Event.logDMsg ("Migrating..." ++ obj) none] }
  | transferFailed (i : Nat) (obj : String) (sv : Services) (evs : List Event) (err : Error)
      (hm : migrateObject cfg sv obj = (evs, some err))
      (hw : s.workers[i]? = some (Worker.migrating obj)) :
      Trans cfg s
        { s with workers := s.workers.set i (Worker.failed obj err)
                 out := s.out ++ evs
                 transfers := s.transfers ++ [(obj, some err)]
                 unresolved := s.unresolved ++ resolutionFailure cfg sv obj }
  | transferOk (i : Nat) (obj : String) (sv : Services) (evs : List Event)
      (hm : migrateObject cfg sv obj = (evs, none))
      (hw : s.workers[i]? = some (Worker.migrating obj)) :
      Trans cfg s
        { s with workers := s.workers.set i Worker.succeeded
                 out := s.out ++ evs
                 transfers := s.transfers ++ [(obj, none)]
                 unresolved := s.unresolved ++ resolutionFailure cfg sv obj }
  | incFail (i : Nat) (obj : String) (err : Error)
      (hw : s.workers[i]? = some (Worker.failed obj err)) :
      Trans cfg s
        { s with m := incFailCount s.m
                 workers := s.workers.set i (Worker.sending obj)
                 out := s.out ++
                   [Event.logMsg ("error migrating object " ++ obj ++ ": " ++ err)] }
  | send (i : Nat) (obj : String) (hcl : s.m.failedCh.closed = false)
      (hlt : s.m.failedCh.buf.length < s.m.failedCh.cap)
      (hw : s.workers[i]? = some (Worker.sending obj)) :
      Trans cfg s
        { s with m := { s.m with failedCh := { buf := s.m.failedCh.buf ++ [obj]
                                               cap := s.m.failedCh.cap, closed := false } }
                 workers := s.workers.set i Worker.select
                 enqueued := s.enqueued ++ [obj] }
  | sendPanic (i : Nat) (obj : String) (hcl : s.m.failedCh.closed = true)
      (hw : s.workers[i]? = some (Worker.sending obj)) :
      Trans cfg s (s.panic "send on closed channel")
  | incCount (i : Nat) (hw : s.workers[i]? = some Worker.succeeded) :
      Trans cfg s
        { s with m := incCount s.m
                 workers := s.workers.set i Worker.select }
  | openOk (hwr : s.writer = Writer.opening) :
      Trans cfg s { s with ledgerFile := some "", writer := Writer.select }
  | openErr (err : Error) (hwr : s.writer = Writer.opening) :
      Trans cfg s
        { s with out := s.out ++ [Event.logDMsg "could not create + failMigFile" (some err)]
                 writer := Writer.done }
  | writerCancel (hwr : s.writer = Writer.select) (hc : s.cancelled = true) :
      Trans cfg s { s with writer := Writer.done }
  | writerRecv (obj : String) (rest : List String) (hwr : s.writer = Writer.select)
      (hb : s.m.failedCh.buf = obj :: rest) :
      Trans cfg s
        { s with m := { s.m with failedCh := { s.m.failedCh with buf := rest } }
                 writer := Writer.writing obj }
  | writerClosed (hwr : s.writer = Writer.select) (hcl : s.m.failedCh.closed = true)
      (hb : s.m.failedCh.buf = []) :
      Trans cfg s { s with writer := Writer.done }
  | writeOk (obj : String) (hwr : s.writer = Writer.writing obj) :
      Trans cfg s
        { s with ledgerFile := s.ledgerFile.map (fun text => text ++ (obj ++ "\n"))
                 writer := Writer.select }
  | writeErr (obj : String) (err : Error) (hwr : s.writer = Writer.writing obj) :
      Trans cfg s
        { s with out := s.out ++
                   [Event.logSprintf ("Error writing to migration_fails.txt for " ++ obj) err]
                 crashed := some (Crash.exit 1) }

/-- The identifiers of the recorded transfers that returned an error, in order. -/
def failedIds : List (String × Option Error) → List String
  | [] => []
  | (obj, some _) :: rest => obj :: failedIds rest
  | (_, none) :: rest => failedIds rest

/-- The failed identifier a worker holds and has not sent on `failedCh` yet. -/
def Worker.holding : Worker → List String
  | .failed obj _ => [obj]
  | .sending obj => [obj]
  | _ => []

/-- The failed identifiers held by the workers. -/
def held : List Worker → List String
  | [] => []
  | w :: rest => w.holding ++ held rest

/-- The failures invariant: the identifiers of the failed transfers are those sent on
`failedCh` together with those the workers still hold. -/
structure Failures (s : System) : Prop where
  sent_or_held : (failedIds s.transfers).Perm (s.enqueued ++ held s.workers)

/-- The dry-run invariant: `minioClient.PutObject` has not been called, and the failed
transfers are exactly the transfers whose resolution failed. -/
structure DryRun (s : System) : Prop where
  no_put : ∀ e ∈ s.out, e.isPut = false
  failed_unresolved : failedIds s.transfers = s.unresolved

/-! ## Concrete scenarios -/

/-- A real (not dry-run) configuration. -/
def cfgReal : Config :=
  { dryRun := false, annotationName := "", minioBucket := "bucket",
    migrateMsg := fun object key => object ++ " -> " ++ key }

/-- A dry-run configuration. -/
def cfgDry : Config := { cfgReal with dryRun := true }

/-- The metadata the source answers with in the scenarios. -/
def infoOf (object : String) : ObjectInfo :=
  { Key := object, Size := 3, ContentType := "text/plain",
    UserMetadata := [("owner", "hcp")], ETag := "etag-1", LastModified := 1600000000 }

/-- Both services succeed. -/
def svOk : Services :=
  { GetObject := fun object _ => .ok (⟨0⟩, infoOf object)
    PutObject := fun _ _ _ _ _ => none }

/-- The source fails to resolve the identifier. -/
def svNoSource : Services :=
  { GetObject := fun _ _ => .error "not found"
    PutObject := fun _ _ _ _ _ => none }

/-- The source resolves the identifier and the destination rejects the write. -/
def svNoStore : Services :=
  { GetObject := fun object _ => .ok (⟨0⟩, infoOf object)
    PutObject := fun _ _ _ _ _ => some "access denied" }

/-- The listing of the scenario: three identifiers. -/
def abc : List String := ["a", "b", "c"]

/-- Every worker of a pool of 100 takes `case obj, ok := <-m.objectCh` once. -/
def allWorkersRecv : List Action :=
  (List.range 100).map (fun i => Action.worker i WorkerAction.recv)

/-- A run over `abc` in the default configuration (100 workers) in which the source fails
to resolve `"b"`, up to the point where the caller waits in `finish` at `m.wg.Wait()` with
the workers drained: workers 0 and 1 do the transfers, the ledger goroutine has opened the
file and has not received anything yet, the caller closes `objectCh`, and every worker
returns on the closed `objectCh`. -/
def scheduleToWait : List Action :=
  [.main, .main, .worker 0 .recv, .main,
   .worker 0 (.migrate svOk), .worker 0 .next,
   .worker 1 .recv, .worker 1 (.migrate svNoSource), .worker 1 .next, .worker 1 .next,
   .worker 0 .recv, .worker 0 (.migrate svOk), .worker 0 .next,
   .writer (.openFile none),
   .main] ++ allWorkersRecv

/-- The state at the end of `scheduleToWait` in a real run. -/
def drainedABC : System :=
  (run cfgReal (boot 8 100 abc) scheduleToWait).getD (boot 8 100 abc)

/-- The run `scheduleToWait` followed by the rest of `finish`, up to its return. -/
def scheduleToReturn : List Action :=
  scheduleToWait ++ [.main, .main, .main]

/-- The run `scheduleToReturn` followed by the ledger goroutine draining the failure
queue and returning. -/
def scheduleABC : List Action :=
  scheduleToReturn ++ [.writer .recv, .writer (.write none), .writer .recv]

/-- The state at the end of `scheduleABC` in a real run. -/
def finalABC : System :=
  (run cfgReal (boot 8 100 abc) scheduleABC).getD (boot 8 100 abc)

/-- A run over `["b"]` in the default configuration in which `os.OpenFile` fails and the
transfer of `"b"` fails, up to the return of `finish`. -/
def scheduleNoLedger : List Action :=
  [.writer (.openFile (some "no such file or directory")),
   .main, .worker 0 .recv, .worker 0 (.migrate svNoSource), .worker 0 .next, .worker 0 .next,
   .main] ++ allWorkersRecv ++ [.main, .main, .main]

/-- A listing of 101 identifiers, `obj0` to `obj100`. -/
def listing101 : List String := (List.range 101).map (fun i => "obj" ++ toString i)

/-- Worker 0 handles one identifier whose transfer fails: the caller submits it, the
worker receives it, the transfer fails, the failure is counted and sent on `failedCh`. -/
def failingRound : List Action :=
  [.main, .worker 0 .recv, .worker 0 (.migrate svNoSource), .worker 0 .next, .worker 0 .next]

/-- A run over `listing101` in the default configuration (100 workers, both channels of
capacity 100) in which every transfer fails: the ledger goroutine opens the file and is
not scheduled again while worker 0 fails `obj0` to `obj99`, which fill `failedCh`; worker
0 receives `obj100`; the context is cancelled; the ledger goroutine, at its `select`,
takes `case <-ctx.Done()`; the transfer of `obj100` fails; the caller enters `finish`;
the 99 idle workers return on `ctx.Done()`. -/
def scheduleCancel : List Action :=
  [.writer (.openFile none)] ++ (List.replicate 100 failingRound).flatten ++
  [.main, .worker 0 .recv, .cancel, .writer .ctxDone,
   .worker 0 (.migrate svNoSource), .worker 0 .next, .main] ++
  (List.range 99).map (fun i => Action.worker (i + 1) WorkerAction.ctxDone)

/-- The state at the end of `scheduleCancel`. -/
def stuck : System :=
  (run cfgReal (boot 8 100 listing101) scheduleCancel).getD (boot 8 100 listing101)

/-- The same with one worker (both channels of capacity 1) and two identifiers: `"a"`
fails and fills `failedCh`, the context is cancelled while `"b"` is being transferred,
the ledger goroutine takes `case <-ctx.Done()`, `"b"` fails, the caller enters
`finish`. -/
def scheduleCancelSmall : List Action :=
  [.main, .worker 0 .recv, .main,
   .worker 0 (.migrate svNoSource), .worker 0 .next, .worker 0 .next,
   .worker 0 .recv,
   .writer (.openFile none),
   .cancel,
   .writer .ctxDone,
   .worker 0 (.migrate svNoSource), .worker 0 .next,
   .main]

/-- The state at the end of `scheduleCancelSmall`. -/
def stuckSmall : System :=
  (run cfgReal (boot 1 1 ["a", "b"]) scheduleCancelSmall).getD (boot 1 1 ["a", "b"])

/-- The state at the end of `scheduleABC` in a dry run. -/
def finalDry : System :=
  (run cfgDry (boot 8 100 abc) scheduleABC).getD (boot 8 100 abc)

/-- A run over `listing101` in the default configuration, real mode, without
cancellation, in which `os.OpenFile` fails (so the ledger goroutine returns at once) and
every transfer fails: worker 0 fails `obj0` to `obj99`, which fill `failedCh`, then fails
`obj100`; the caller enters `finish`; the 99 idle workers return on the closed
`objectCh`. -/
def scheduleNoReader : List Action :=
  [.writer (.openFile (some "no such file or directory"))] ++
  (List.replicate 100 failingRound).flatten ++
  [.main, .worker 0 .recv, .worker 0 (.migrate svNoSource), .worker 0 .next, .main] ++
  (List.range 99).map (fun i => Action.worker (i + 1) WorkerAction.recv)

/-- The state at the end of `scheduleNoReader`. -/
def stuckNoReader : System :=
  (run cfgReal (boot 8 100 listing101) scheduleNoReader).getD (boot 8 100 listing101)

/-- The caller waits in `finish` at `m.wg.Wait()` while the only worker that has not
returned is blocked at `m.failedCh <- "obj100"`: the failure queue is full and the ledger
goroutine has returned. -/
def Blocked (s : System) : Prop :=
  s.crashed = none ∧ s.main = Main.waiting ∧ s.m.wg = 1 ∧
  s.workers = Worker.sending "obj100" :: List.replicate 99 Worker.done ∧
  s.m.failedCh.closed = false ∧ s.m.failedCh.cap = 100 ∧
  s.m.failedCh.buf.length = 100 ∧ s.writer = Writer.done

/-- The lines logged with `logMsg`, in order. -/
def logLines : List Event → List String
  | [] => []
  | .logMsg msg :: rest => msg :: logLines rest
  | _ :: rest => logLines rest

/-! ## Theorems -/

/-! ### The transfer operation -/

/-- C4: `migrateObject` calls `hcp.GetObject` exactly once, as its first effect, and
`minioClient.PutObject` at most once; a `PutObject` call happens only when the resolution
succeeded; the result is an error exactly when the resolution failed or (not dry-run and
the store failed); and when the resolution fails, its error is the result and
`PutObject` is not called. -/
theorem migrateObject_calls (cfg : Config) (sv : Services) (object : String) :
    ((migrateObject cfg sv object).1.countP Event.isGet = 1) ∧
    ((migrateObject cfg sv object).1.head? =
      some (Event.getObject object cfg.annotationName)) ∧
    ((migrateObject cfg sv object).1.countP Event.isPut ≤ 1) ∧
    (0 < (migrateObject cfg sv object).1.countP Event.isPut →
      ∃ r oi, sv.GetObject object cfg.annotationName = .ok (r, oi)) ∧
    ((migrateObject cfg sv object).2.isSome = true ↔
      ((∃ err, sv.GetObject object cfg.annotationName = .error err) ∨
       (cfg.dryRun = false ∧ ∃ r oi err,
          sv.GetObject object cfg.annotationName = .ok (r, oi) ∧
          sv.PutObject cfg.minioBucket oi.Key r oi.Size (putOptions oi) = some err))) ∧
    (∀ err, sv.GetObject object cfg.annotationName = .error err →
      (migrateObject cfg sv object).2 = some err ∧
      (migrateObject cfg sv object).1.countP Event.isPut = 0) := by
  unfold migrateObject
  cases hg : sv.GetObject object cfg.annotationName with
  | error err => simp [Event.isGet, Event.isPut]
  | ok p =>
    obtain ⟨r, oi⟩ := p
    cases hd : cfg.dryRun with
    | true => simp [Event.isGet, Event.isPut]
    | false =>
      cases hp : sv.PutObject cfg.minioBucket oi.Key r oi.Size (putOptions oi) with
      | none => simp [Event.isGet, Event.isPut, hp]
      | some err =>
        simp [Event.isGet, Event.isPut, hp]
        exact ⟨r, oi, ⟨rfl, rfl⟩, err, hp⟩

/-- C5: in a real transfer whose resolution succeeds with stream `r` and metadata `oi`,
`migrateObject` makes exactly one `PutObject` call, with the bucket `minioBucket`, the key
`oi.Key`, the stream `r`, the size `oi.Size`, the content type `oi.ContentType`, the user
metadata `oi.UserMetadata`, and the hints `SourceETag = oi.ETag` and
`SourceMTime = oi.LastModified`. -/
theorem migrateObject_put_arguments (cfg : Config) (sv : Services) (object : String)
    (r : Reader) (oi : ObjectInfo) (hreal : cfg.dryRun = false)
    (hres : sv.GetObject object cfg.annotationName = .ok (r, oi)) :
    (migrateObject cfg sv object).1.filter Event.isPut =
      [Event.putObject cfg.minioBucket oi.Key r oi.Size
        { ContentType := oi.ContentType
          UserMetadata := oi.UserMetadata
          Internal := { SourceETag := oi.ETag, SourceMTime := oi.LastModified } }] := by
  unfold migrateObject
  cases hp : sv.PutObject cfg.minioBucket oi.Key r oi.Size (putOptions oi) with
  | none =>
    simp only [hres, hreal, hp]
    simp [Event.isPut, putOptions]
  | some err =>
    simp only [hres, hreal, hp]
    simp [Event.isPut, putOptions]

/-- Witness for C5: the real transfer of `"a"` when the destination rejects the write. -/
theorem migrateObject_put_arguments_witness :
    (migrateObject cfgReal svNoStore "a").1.filter Event.isPut =
      [Event.putObject "bucket" "a" ⟨0⟩ 3
        { ContentType := "text/plain"
          UserMetadata := [("owner", "hcp")]
          Internal := { SourceETag := "etag-1", SourceMTime := 1600000000 } }] :=
  migrateObject_put_arguments cfgReal svNoStore "a" ⟨0⟩ (infoOf "a") rfl rfl

/-! ### Helper lemmas -/

theorem total_set (f : Worker → Nat) (ws : List Worker) (i : Nat) (a b : Worker)
    (h : ws[i]? = some a) : total f (ws.set i b) + f a = total f ws + f b := by
  induction ws generalizing i with
  | nil => simp at h
  | cons w rest ih =>
    cases i with
    | zero =>
      simp at h
      subst h
      simp [total]
      omega
    | succ j =>
      simp at h
      have := ih j h
      simp [total] at this ⊢
      omega

theorem ledgerText_append (xs ys : List String) :
    ledgerText (xs ++ ys) = ledgerText xs ++ ledgerText ys := by
  induction xs with
  | nil => simp [ledgerText]
  | cons x rest ih => simp [ledgerText, ih, String.append_assoc]

theorem addUint64_eq (x n : Nat) (h : x < n) (hn : n < 2 ^ 64) : addUint64 x = x + 1 := by
  unfold addUint64
  exact Nat.mod_eq_of_lt (by omega)

theorem le_total (f : Worker → Nat) (ws : List Worker) (i : Nat) (a : Worker)
    (h : ws[i]? = some a) : f a ≤ total f ws := by
  induction ws generalizing i with
  | nil => simp at h
  | cons w rest ih =>
    cases i with
    | zero =>
      simp at h
      subst h
      simp [total]
    | succ j =>
      simp at h
      have := ih j h
      simp [total] at this ⊢
      omega
theorem total_set_eq (f : Worker → Nat) (ws : List Worker) (i : Nat) (a b : Worker)
    (h : ws[i]? = some a) : total f (ws.set i b) = total f ws + f b - f a := by
  have h1 := total_set f ws i a b h
  omega

theorem le_totals (ws : List Worker) (i : Nat) (a : Worker) (h : ws[i]? = some a) :
    a.live ≤ total Worker.live ws ∧ a.finished ≤ total Worker.finished ws ∧
    a.inflight ≤ total Worker.inflight ws ∧ a.okPending ≤ total Worker.okPending ws ∧
    a.errPending ≤ total Worker.errPending ws ∧
    a.sendPending ≤ total Worker.sendPending ws :=
  ⟨le_total _ ws i a h, le_total _ ws i a h, le_total _ ws i a h, le_total _ ws i a h,
   le_total _ ws i a h, le_total _ ws i a h⟩

theorem foldl_addWorker (n : Nat) (s : System) :
    (List.range n).foldl (fun acc _ => addWorker acc) s =
      { s with m := { s.m with wg := s.m.wg + n }
               workers := s.workers ++ List.replicate n Worker.select } := by
  induction n with
  | zero => simp
  | succ k ih =>
    rw [List.range_succ, List.foldl_append, ih]
    simp [addWorker, List.replicate_succ', Nat.add_assoc]

theorem boot_eq (p c : Int) (input : List String) :
    boot p c input =
      { migrationConcurrent := if p > c then p else c
        m := { objectCh := Chan.make (if p > c then p else c).toNat
               failedCh := Chan.make (if p > c then p else c).toNat
               count := 0, failCnt := 0, wg := (if p > c then p else c).toNat }
        workers := List.replicate (if p > c then p else c).toNat Worker.select
        writer := .opening
        main := .submit input
        cancelled := false
        ledgerFile := none
        crashed := none
        out := []
        transfers := []
        enqueued := []
        unresolved := [] } := by
  simp [boot, init, newMigrationState, foldl_addWorker]

/-- C6: with `p = runtime.GOMAXPROCS(0)` (at least 1) and the configured concurrency `c`,
`newMigrationState` followed by `init` launches `max c p` workers: `c` of them when
`p ≤ c`, `p` when `c < p`, never fewer than `p`; each is at the top of its loop and
registered in the wait group. -/
theorem init_worker_count (c p : Int) (input : List String) (hp : 1 ≤ p) :
    (((boot p c input).workers.length : Nat) : Int) = max c p ∧
    (p ≤ c → (((boot p c input).workers.length : Nat) : Int) = c) ∧
    (c < p → (((boot p c input).workers.length : Nat) : Int) = p) ∧
    p ≤ (((boot p c input).workers.length : Nat) : Int) ∧
    (∀ w ∈ (boot p c input).workers, w = Worker.select) ∧
    (boot p c input).m.wg = (boot p c input).workers.length := by
  rw [boot_eq]
  simp only [List.length_replicate]
  by_cases h : p > c
  · simp only [if_pos h]
    have : max c p = p := max_eq_right (le_of_lt h)
    refine ⟨by omega, fun _ => by omega, fun _ => by omega, by omega, ?_, trivial⟩
    intro w hw
    exact (List.mem_replicate.mp hw).2
  · simp only [if_neg h]
    have : max c p = c := max_eq_left (not_lt.mp h)
    refine ⟨by omega, fun _ => by omega, fun _ => by omega, by omega, ?_, trivial⟩
    intro w hw
    exact (List.mem_replicate.mp hw).2

/-- Witness for C6: the default concurrency 100 on a host with 8 execution units. -/
theorem init_worker_count_witness :
    (((boot 8 100 []).workers.length : Nat) : Int) = max 100 8 ∧
    ((8 : Int) ≤ 100 → (((boot 8 100 []).workers.length : Nat) : Int) = (100 : Int)) ∧
    ((100 : Int) < 8 → (((boot 8 100 []).workers.length : Nat) : Int) = 8) ∧
    (8 : Int) ≤ (((boot 8 100 []).workers.length : Nat) : Int) ∧
    (∀ w ∈ (boot 8 100 []).workers, w = Worker.select) ∧
    (boot 8 100 []).m.wg = (boot 8 100 []).workers.length :=
  init_worker_count 100 8 [] (by decide)

/-! ### Steps as transitions -/

theorem Chan.send_cases (ch : Chan) (x : String) :
    (ch.closed = true ∧ ch.send x = .panic) ∨
    (ch.closed = false ∧ ch.buf.length < ch.cap ∧
      ch.send x = .sent { buf := ch.buf ++ [x], cap := ch.cap, closed := false }) ∨
    (ch.send x = .blocked) := by
  unfold Chan.send
  cases hc : ch.closed with
  | true => simp
  | false =>
    by_cases hl : ch.buf.length < ch.cap
    · simp [hl]
    · simp [hl]

theorem Chan.recv_cases (ch : Chan) :
    (∃ x rest, ch.buf = x :: rest ∧ ch.recv = .value x { ch with buf := rest }) ∨
    (ch.closed = true ∧ ch.buf = [] ∧ ch.recv = .closed) ∨
    (ch.recv = .blocked) := by
  unfold Chan.recv
  cases hb : ch.buf with
  | nil => cases hc : ch.closed <;> simp
  | cons x rest => simp

theorem Chan.close_cases (ch : Chan) :
    (ch.closed = true ∧ ch.close = none) ∨
    (ch.closed = false ∧
      ch.close = some { buf := ch.buf, cap := ch.cap, closed := true }) := by
  unfold Chan.close
  cases hc : ch.closed <;> simp

theorem workerReturn_trans (cfg : Config) (s : System) (i : Nat)
    (hcause : s.cancelled = true ∨ (s.m.objectCh.closed = true ∧ s.m.objectCh.buf = []))
    (hw : s.workers[i]? = some Worker.select) : Trans cfg s (workerReturn s i) := by
  unfold workerReturn
  split
  · rename_i hwg
    exact Trans.workerReturnPanic i hwg hw
  · rename_i hwg
    exact Trans.workerReturn i hcause hwg hw

theorem mainStep_trans (cfg : Config) (s t : System) (h : mainStep cfg s = some t) :
    Trans cfg s t := by
  unfold mainStep at h
  split at h
  · rename_i obj rest hm
    unfold queueUploadTask at h
    rcases Chan.send_cases s.m.objectCh obj with ⟨hcl, hs⟩ | ⟨hcl, hlt, hs⟩ | hs
    · simp only [hs, Option.some.injEq] at h
      subst h
      exact Trans.submitPanic obj rest hm hcl
    · simp only [hs, Option.some.injEq] at h
      subst h
      exact Trans.submit obj rest hm hcl hlt
    · simp [hs] at h
  · rename_i hne
    unfold finish at h
    split at h
    · rename_i rest hm
      have hrest : rest = [] := by
        cases rest with
        | nil => rfl
        | cons obj tl => exact absurd hm (hne obj tl)
      subst hrest
      rcases Chan.close_cases s.m.objectCh with ⟨hcl, hs⟩ | ⟨hcl, hs⟩
      · simp only [hs, Option.some.injEq] at h
        subst h
        exact Trans.closeObjectPanic hm hcl
      · simp only [hs, Option.some.injEq] at h
        subst h
        exact Trans.closeObject hm hcl
    · rename_i hm
      split at h
      · rename_i hwg
        simp only [Option.some.injEq] at h
        subst h
        exact Trans.wait hm hwg
      · simp at h
    · rename_i hm
      rcases Chan.close_cases s.m.failedCh with ⟨hcl, hs⟩ | ⟨hcl, hs⟩
      · simp only [hs, Option.some.injEq] at h
        subst h
        exact Trans.closeFailedPanic hm hcl
      · simp only [hs, Option.some.injEq] at h
        subst h
        exact Trans.closeFailed hm hcl
    · rename_i hm
      split at h
      · rename_i hd
        simp only [Option.some.injEq] at h
        subst h
        exact Trans.logDry hm hd
      · rename_i hd
        simp only [Option.some.injEq] at h
        subst h
        exact Trans.logReal hm (by simpa using hd)
    · simp at h

theorem workerStep_trans (cfg : Config) (s t : System) (i : Nat) (a : WorkerAction)
    (h : workerStep cfg s i a = some t) : Trans cfg s t := by
  unfold workerStep at h
  split at h
  · rename_i hw
    split at h
    · rename_i hc
      simp only [Option.some.injEq] at h
      subst h
      exact workerReturn_trans cfg s i (Or.inl hc) hw
    · simp at h
  · rename_i hw
    rcases Chan.recv_cases s.m.objectCh with ⟨x, rest, hb, hr⟩ | ⟨hcl, hb, hr⟩ | hr
    · simp only [hr, Option.some.injEq] at h
      subst h
      exact Trans.workerRecv i x rest hb hw
    · simp only [hr, Option.some.injEq] at h
      subst h
      exact workerReturn_trans cfg s i (Or.inr ⟨hcl, hb⟩) hw
    · simp [hr] at h
  · rename_i obj sv hw
    split at h
    · rename_i evs err hm
      simp only [Option.some.injEq] at h
      subst h
      exact Trans.transferFailed i obj sv evs err hm hw
    · rename_i evs hm
      simp only [Option.some.injEq] at h
      subst h
      exact Trans.transferOk i obj sv evs hm hw
  · rename_i obj err hw
    simp only [Option.some.injEq] at h
    subst h
    exact Trans.incFail i obj err hw
  · rename_i obj hw
    rcases Chan.send_cases s.m.failedCh obj with ⟨hcl, hs⟩ | ⟨hcl, hlt, hs⟩ | hs
    · simp only [hs, Option.some.injEq] at h
      subst h
      exact Trans.sendPanic i obj hcl hw
    · simp only [hs, Option.some.injEq] at h
      subst h
      exact Trans.send i obj hcl hlt hw
    · simp [hs] at h
  · rename_i hw
    simp only [Option.some.injEq] at h
    subst h
    exact Trans.incCount i hw
  · simp at h

theorem writerStep_trans (cfg : Config) (s t : System) (a : WriterAction)
    (h : writerStep s a = some t) : Trans cfg s t := by
  unfold writerStep at h
  split at h
  · rename_i hwr
    simp only [Option.some.injEq] at h
    subst h
    exact Trans.openOk hwr
  · rename_i err hwr
    simp only [Option.some.injEq] at h
    subst h
    exact Trans.openErr err hwr
  · rename_i hwr
    split at h
    · rename_i hc
      simp only [Option.some.injEq] at h
      subst h
      exact Trans.writerCancel hwr hc
    · simp at h
  · rename_i hwr
    rcases Chan.recv_cases s.m.failedCh with ⟨x, rest, hb, hr⟩ | ⟨hcl, hb, hr⟩ | hr
    · simp only [hr, Option.some.injEq] at h
      subst h
      exact Trans.writerRecv x rest hwr hb
    · simp only [hr, Option.some.injEq] at h
      subst h
      exact Trans.writerClosed hwr hcl hb
    · simp [hr] at h
  · rename_i obj hwr
    simp only [Option.some.injEq] at h
    subst h
    exact Trans.writeOk obj hwr
  · rename_i obj err hwr
    simp only [Option.some.injEq] at h
    subst h
    exact Trans.writeErr obj err hwr
  · simp at h

/-- Every step is one of the transitions, and is taken by a live process. -/
theorem step_trans (cfg : Config) (s t : System) (a : Action) (h : step cfg s a = some t) :
    s.crashed = none ∧ Trans cfg s t := by
  unfold step at h
  split at h
  · simp at h
  · rename_i hcr
    refine ⟨by simpa using hcr, ?_⟩
    cases a with
    | cancel =>
      simp only at h
      split at h
      · simp at h
      · rename_i hc
        simp only [Option.some.injEq] at h
        subst h
        exact Trans.cancel (by simpa using hc)
    | main => exact mainStep_trans cfg s t h
    | worker i a => exact workerStep_trans cfg s t i a h
    | writer a => exact writerStep_trans cfg s t a h

/-! ### The invariants are preserved -/

set_option maxHeartbeats 1000000 in
theorem shutdown_step (cfg : Config) (s t : System) (hs : Shutdown s)
    (htr : Trans cfg s t) : Shutdown t := by
  obtain ⟨h1, h2, h3, h4, h5, h6⟩ := hs
  cases htr
  all_goals first
    | (have hw := ‹_[_]? = some _›
       have L1 := fun f b => total_set_eq f _ _ _ b hw
       have L2 := le_totals _ _ _ hw
       simp only [Worker.live, Worker.finished, Worker.inflight, Worker.okPending,
         Worker.errPending, Worker.sendPending] at L2
       constructor <;> first
         | assumption
         | ((try simp_all [System.panic, incCount, incFailCount, Main.pastWait, Main.pastClose, Main.finishing,
              Worker.live, Worker.finished, Worker.inflight, Worker.okPending,
              Worker.errPending, Worker.sendPending]) <;>
            omega))
    | (constructor <;> first
         | assumption
         | (simp_all [System.panic, incCount, incFailCount, Main.pastWait, Main.pastClose, Main.finishing]))

set_option maxHeartbeats 1000000 in
theorem accounting_step (cfg : Config) (n : Nat) (s t : System) (hn : n < 2 ^ 64)
    (hs : Accounting n s) (htr : Trans cfg s t) : Accounting n t := by
  obtain ⟨h1, h2, h3, h4⟩ := hs
  cases htr
  all_goals first
    | (have hw := ‹_[_]? = some _›
       have L1 := fun f b => total_set_eq f _ _ _ b hw
       have L2 := le_totals _ _ _ hw
       simp only [Worker.live, Worker.finished, Worker.inflight, Worker.okPending,
         Worker.errPending, Worker.sendPending] at L2
       constructor <;> first
         | assumption
         | ((try simp_all [System.panic, incCount, incFailCount, Main.rest, addUint64, okTransfers, errTransfers,
              List.countP_append,
              Worker.live, Worker.finished, Worker.inflight, Worker.okPending,
              Worker.errPending, Worker.sendPending]) <;>
            omega))
    | (constructor <;> first
         | assumption
         | ((try simp_all [System.panic, incCount, incFailCount, Main.rest]) <;> omega))

set_option maxHeartbeats 1000000 in
theorem drain_step (cfg : Config) (s t : System)
    (hs : Drain s) (htr : Trans cfg s t) : Drain t := by
  obtain ⟨h1, h2, h3⟩ := hs
  cases htr
  case workerReturn i hcause hwg hw =>
    refine ⟨?_, h2, ?_⟩
    · simpa using h1
    · intro hc _
      rcases hcause with hcan | hcl
      · exact absurd hcan (by simpa using hc)
      · exact hcl
  all_goals first
    | (have hw := ‹_[_]? = some _›
       have L1 := fun f b => total_set_eq f _ _ _ b hw
       have L2 := le_totals _ _ _ hw
       simp only [Worker.live, Worker.finished, Worker.inflight, Worker.okPending,
         Worker.errPending, Worker.sendPending] at L2
       constructor <;> first
         | assumption
         | ((try simp_all [System.panic, incCount, incFailCount,
              Worker.live, Worker.finished, Worker.inflight, Worker.okPending,
              Worker.errPending, Worker.sendPending]) <;>
            omega))
    | (constructor <;> first
         | assumption
         | ((try simp_all [System.panic]) <;> omega))

set_option maxHeartbeats 1000000 in
theorem summary_step (cfg : Config) (s t : System) (hsd : Shutdown s)
    (hs : Summary cfg s) (htr : Trans cfg s t) : Summary cfg t := by
  obtain ⟨h1⟩ := hs
  obtain ⟨g1, g2, g3, g4, g5, g6⟩ := hsd
  cases htr
  all_goals first
    | (have hw := ‹_[_]? = some _›
       have L2 := le_totals _ _ _ hw
       simp only [Worker.live, Worker.finished, Worker.inflight, Worker.okPending,
         Worker.errPending, Worker.sendPending] at L2
       constructor
       intro hm hd
       have hz := g2 (by simp_all [Main.pastWait, System.panic])
       omega)
    | (constructor
       first
         | assumption
         | (intros
            simp_all [System.panic, incCount, incFailCount, getCount, getFailCount]))

set_option maxHeartbeats 1000000 in
theorem ledger_step (cfg : Config) (s t : System)
    (hs : Ledger s) (htr : Trans cfg s t) : Ledger t := by
  obtain ⟨h1, h2, h2b, h3⟩ := hs
  cases htr
  case send i obj hcl hlt hw =>
    refine ⟨?_, ?_, h2b, ?_⟩
    · intro text hl
      have := h1 text hl
      simp only [ledgerText_append] at this ⊢
      rw [← this]
      simp only [String.append_assoc]
    · intro hwr
      simp [h2 hwr]
    · intro hwr hc hf
      have := h3 hwr hc hf
      simp [hcl] at this
  case openOk hwr =>
    refine ⟨?_, ?_, ?_, ?_⟩
    · intro text hl
      simp only [Option.some.injEq] at hl
      subst hl
      simp [Writer.pending, h2 hwr]
    · intro hx
      simp at hx
    · intro hx
      simp at hx
    · intro hx
      simp at hx
  case writeOk obj hwr =>
    refine ⟨?_, ?_, ?_, ?_⟩
    · intro text hl
      simp only [Option.map_eq_some'] at hl
      obtain ⟨a, ha, rfl⟩ := hl
      have := h1 a ha
      simp only [hwr, Writer.pending, List.singleton_append, ledgerText] at this
      simp only [Writer.pending, List.nil_append]
      rw [← this]
      simp only [String.append_assoc]
    · intro hx
      simp at hx
    · intro hx
      simp at hx
    · intro hx
      simp at hx
  all_goals first
    | (constructor <;> first
         | assumption
         | (intros
            simp_all [System.panic, incCount, incFailCount, Writer.pending, ledgerText, ledgerText_append,
              String.append_assoc]))

/-! ### Runs -/

theorem total_replicate (f : Worker → Nat) (k : Nat) (w : Worker) :
    total f (List.replicate k w) = k * f w := by
  induction k with
  | zero => simp [total]
  | succ j ih =>
    simp only [total, List.replicate_succ, List.map_cons, List.sum_cons] at ih ⊢
    rw [ih, Nat.succ_mul]
    omega

theorem all_done_of_total_live (ws : List Worker) (h : total Worker.live ws = 0) :
    ∀ w ∈ ws, w = Worker.done := by
  induction ws with
  | nil => simp
  | cons w rest ih =>
    simp only [total, List.map_cons, List.sum_cons] at h
    intro x hx
    rcases List.mem_cons.mp hx with rfl | hx
    · cases x <;> simp [Worker.live] at h ⊢
    · exact ih (by simp only [total]; omega) x hx

theorem totals_of_all_done (ws : List Worker) (h : ∀ w ∈ ws, w = Worker.done) :
    total Worker.inflight ws = 0 ∧ total Worker.okPending ws = 0 ∧
    total Worker.errPending ws = 0 ∧ total Worker.sendPending ws = 0 ∧
    total Worker.finished ws = ws.length := by
  induction ws with
  | nil => simp [total]
  | cons w rest ih =>
    have hw : w = Worker.done := h w (List.mem_cons_self _ _)
    have := ih (fun x hx => h x (List.mem_cons_of_mem _ hx))
    subst hw
    simp only [total, List.map_cons, List.sum_cons, List.length_cons, Worker.inflight,
      Worker.okPending, Worker.errPending, Worker.sendPending, Worker.finished] at this ⊢
    omega

/-- A property kept by every transition of a live process holds along every run. -/
theorem run_induction (cfg : Config) (P : System → Prop)
    (hP : ∀ s t, P s → s.crashed = none → Trans cfg s t → P t) (acts : List Action) :
    ∀ s t, P s → run cfg s acts = some t → P t := by
  induction acts with
  | nil =>
    intro s t hs h
    simp only [run, Option.some.injEq] at h
    subst h
    exact hs
  | cons a rest ih =>
    intro s t hs h
    simp only [run, Option.bind_eq_some] at h
    obtain ⟨u, hu, hr⟩ := h
    have htr := step_trans cfg s u a hu
    exact ih u t (hP s u hs htr.1 htr.2) hr

theorem boot_shutdown (p c : Int) (input : List String) : Shutdown (boot p c input) := by
  rw [boot_eq]
  constructor <;>
    simp [total_replicate, Worker.live, Main.pastWait, Main.pastClose, Main.finishing,
      Chan.make]

theorem boot_accounting (p c : Int) (input : List String) :
    Accounting input.length (boot p c input) := by
  rw [boot_eq]
  constructor <;>
    simp [total_replicate, Worker.inflight, Worker.okPending, Worker.errPending,
      Worker.sendPending, Main.rest, Chan.make, okTransfers, errTransfers]

theorem boot_drain (p c : Int) (input : List String) : Drain (boot p c input) := by
  rw [boot_eq]
  constructor <;> simp [total_replicate, Worker.finished, Chan.make]

theorem boot_ledger (p c : Int) (input : List String) : Ledger (boot p c input) := by
  rw [boot_eq]
  constructor <;> simp [Chan.make]

theorem boot_summary (cfg : Config) (p c : Int) (input : List String) :
    Summary cfg (boot p c input) := by
  rw [boot_eq]
  constructor
  simp

/-- The invariant holds after `newMigrationState` and `init`. -/
theorem boot_inv (cfg : Config) (p c : Int) (input : List String) :
    Inv cfg input.length (boot p c input) :=
  ⟨boot_shutdown p c input, boot_accounting p c input, boot_drain p c input,
   boot_ledger p c input, boot_summary cfg p c input⟩

/-- The shutdown invariant holds in every state of every run. -/
theorem run_shutdown (cfg : Config) (p c : Int) (input : List String) (acts : List Action)
    (s : System) (hrun : run cfg (boot p c input) acts = some s) : Shutdown s :=
  run_induction cfg Shutdown (fun s t hs _ htr => shutdown_step cfg s t hs htr) acts _ _
    (boot_shutdown p c input) hrun

/-- The invariant holds in every state of every run over fewer than `2 ^ 64`
identifiers. -/
theorem run_inv (cfg : Config) (p c : Int) (input : List String) (acts : List Action)
    (s : System) (hn : input.length < 2 ^ 64)
    (hrun : run cfg (boot p c input) acts = some s) : Inv cfg input.length s :=
  run_induction cfg (Inv cfg input.length)
    (fun s t hs _ htr =>
      ⟨shutdown_step cfg s t hs.shutdown htr,
       accounting_step cfg input.length s t hn hs.accounting htr,
       drain_step cfg s t hs.drain htr,
       ledger_step cfg s t hs.ledger htr,
       summary_step cfg s t hs.shutdown hs.summary htr⟩) acts _ _
    (boot_inv cfg p c input) hrun

/-- Once the caller is past `m.wg.Wait()`, every worker has returned. -/
theorem workers_done_of_pastWait (s : System) (hs : Shutdown s)
    (hp : s.main.pastWait = true) : ∀ w ∈ s.workers, w = Worker.done :=
  all_done_of_total_live s.workers (by rw [← hs.wg_live]; exact hs.past_wait hp)

theorem failedIds_append (xs ys : List (String × Option Error)) :
    failedIds (xs ++ ys) = failedIds xs ++ failedIds ys := by
  induction xs with
  | nil => rfl
  | cons x rest ih =>
    obtain ⟨obj, res⟩ := x
    cases res with
    | none => simpa [failedIds] using ih
    | some err => simp [failedIds, ih]

theorem held_set (ws : List Worker) (i : Nat) (a b : Worker) (h : ws[i]? = some a) :
    (held (ws.set i b) ++ a.holding).Perm (held ws ++ b.holding) := by
  induction ws generalizing i with
  | nil => simp at h
  | cons w rest ih =>
    cases i with
    | zero =>
      simp at h
      subst h
      simp only [List.set_cons_zero, held]
      rw [List.append_assoc]
      exact List.perm_append_comm.trans (List.Perm.append_right _ List.perm_append_comm)
    | succ j =>
      simp at h
      simp only [List.set_cons_succ, held, List.append_assoc]
      exact List.Perm.append_left _ (ih j h)

theorem held_all_done (ws : List Worker) (h : ∀ w ∈ ws, w = Worker.done) : held ws = [] := by
  induction ws with
  | nil => rfl
  | cons w rest ih =>
    have hw : w = Worker.done := h w (List.mem_cons_self _ _)
    subst hw
    simp [held, Worker.holding, ih (fun x hx => h x (List.mem_cons_of_mem _ hx))]

theorem failures_step (cfg : Config) (s t : System) (hs : Failures s)
    (htr : Trans cfg s t) : Failures t := by
  obtain ⟨h1⟩ := hs
  cases htr
  case workerReturn i hcause hwg hw =>
    have hp := held_set s.workers i _ Worker.done hw
    simp only [Worker.holding, List.append_nil] at hp
    exact ⟨h1.trans (List.Perm.append_left _ hp.symm)⟩
  case workerRecv i obj rest hb hw =>
    have hp := held_set s.workers i _ (Worker.migrating obj) hw
    simp only [Worker.holding, List.append_nil] at hp
    exact ⟨h1.trans (List.Perm.append_left _ hp.symm)⟩
  case transferOk i obj sv evs hm hw =>
    have hp := held_set s.workers i _ Worker.succeeded hw
    simp only [Worker.holding, List.append_nil] at hp
    refine ⟨?_⟩
    simp only [failedIds_append, failedIds, List.append_nil]
    exact h1.trans (List.Perm.append_left _ hp.symm)
  case incCount i hw =>
    have hp := held_set s.workers i _ Worker.select hw
    simp only [Worker.holding, List.append_nil] at hp
    exact ⟨h1.trans (List.Perm.append_left _ hp.symm)⟩
  case transferFailed i obj sv evs err hm hw =>
    have hp := held_set s.workers i _ (Worker.failed obj err) hw
    simp only [Worker.holding, List.append_nil] at hp
    refine ⟨?_⟩
    simp only [failedIds_append, failedIds]
    refine (List.Perm.append_right _ h1).trans ?_
    rw [List.append_assoc]
    exact List.Perm.append_left _ hp.symm
  case incFail i obj err hw =>
    have hp := held_set s.workers i _ (Worker.sending obj) hw
    simp only [Worker.holding] at hp
    have hp2 := (List.perm_append_right_iff [obj]).mp hp
    exact ⟨h1.trans (List.Perm.append_left _ hp2.symm)⟩
  case send i obj hcl hlt hw =>
    have hp := held_set s.workers i _ Worker.select hw
    simp only [Worker.holding, List.append_nil] at hp
    refine ⟨?_⟩
    refine h1.trans ?_
    show List.Perm _ ((s.enqueued ++ [obj]) ++ held (s.workers.set i Worker.select))
    rw [List.append_assoc]
    exact List.Perm.append_left _ (hp.symm.trans List.perm_append_comm)
  all_goals exact Failures.mk h1

theorem held_replicate_select (k : Nat) : held (List.replicate k Worker.select) = [] := by
  induction k with
  | zero => rfl
  | succ j ih => simp [List.replicate_succ, held, Worker.holding, ih]

theorem boot_failures (p c : Int) (input : List String) : Failures (boot p c input) := by
  rw [boot_eq]
  constructor
  simp [failedIds, held_replicate_select]

/-- The failures invariant holds in every state of every run. -/
theorem run_failures (cfg : Config) (p c : Int) (input : List String) (acts : List Action)
    (s : System) (hrun : run cfg (boot p c input) acts = some s) : Failures s :=
  run_induction cfg Failures (fun s t hs _ htr => failures_step cfg s t hs htr) acts _ _
    (boot_failures p c input) hrun

/-- The shutdown and summary invariants hold in every state of every run. -/
theorem run_summary (cfg : Config) (p c : Int) (input : List String) (acts : List Action)
    (s : System) (hrun : run cfg (boot p c input) acts = some s) :
    Shutdown s ∧ Summary cfg s :=
  run_induction cfg (fun s => Shutdown s ∧ Summary cfg s)
    (fun s t hs _ htr =>
      ⟨shutdown_step cfg s t hs.1 htr, summary_step cfg s t hs.1 hs.2 htr⟩) acts _ _
    ⟨boot_shutdown p c input, boot_summary cfg p c input⟩ hrun

/-! ### Dry runs -/

theorem errTransfers_eq_length (ts : List (String × Option Error)) :
    errTransfers ts = (failedIds ts).length := by
  induction ts with
  | nil => rfl
  | cons x rest ih =>
    obtain ⟨obj, res⟩ := x
    cases res with
    | none => simpa [errTransfers, failedIds] using ih
    | some err => simpa [errTransfers, failedIds] using ih

/-- In dry-run mode `migrateObject` makes no `PutObject` call, and it returns an error
exactly when the resolution failed. -/
theorem migrateObject_dry (cfg : Config) (sv : Services) (object : String)
    (evs : List Event) (res : Option Error) (hdry : cfg.dryRun = true)
    (hm : migrateObject cfg sv object = (evs, res)) :
    (∀ e ∈ evs, e.isPut = false) ∧
    resolutionFailure cfg sv object =
      (match res with
       | some _ => [object]
       | none => []) := by
  unfold migrateObject at hm
  unfold resolutionFailure
  cases hg : sv.GetObject object cfg.annotationName with
  | error err =>
    simp only [hg, Prod.mk.injEq] at hm
    obtain ⟨rfl, rfl⟩ := hm
    simp [Event.isPut]
  | ok q =>
    obtain ⟨r, oi⟩ := q
    simp only [hg, hdry, if_true, Prod.mk.injEq] at hm
    obtain ⟨rfl, rfl⟩ := hm
    simp [Event.isPut]

theorem dryRun_step (cfg : Config) (hdry : cfg.dryRun = true) (s t : System)
    (hs : DryRun s) (htr : Trans cfg s t) : DryRun t := by
  obtain ⟨h1, h2⟩ := hs
  cases htr
  case transferFailed i obj sv evs err hm hw =>
    obtain ⟨hput, hres⟩ := migrateObject_dry cfg sv obj evs (some err) hdry hm
    refine ⟨?_, ?_⟩
    · intro e he
      rcases List.mem_append.mp he with he | he
      · exact h1 e he
      · exact hput e he
    · simp only [failedIds_append, failedIds, hres, h2]
  case transferOk i obj sv evs hm hw =>
    obtain ⟨hput, hres⟩ := migrateObject_dry cfg sv obj evs none hdry hm
    refine ⟨?_, ?_⟩
    · intro e he
      rcases List.mem_append.mp he with he | he
      · exact h1 e he
      · exact hput e he
    · simp only [failedIds_append, failedIds, hres, h2]
  all_goals first
    | exact DryRun.mk h1 h2
    | (refine ⟨?_, h2⟩
       intro e he
       rcases List.mem_append.mp he with he | he
       · exact h1 e he
       · simp only [List.mem_singleton] at he
         subst he
         rfl)

theorem boot_dryRun (p c : Int) (input : List String) : DryRun (boot p c input) := by
  rw [boot_eq]
  constructor <;> simp [failedIds]

/-- The dry-run invariant holds in every state of every dry run. -/
theorem run_dryRun (cfg : Config) (hdry : cfg.dryRun = true) (p c : Int)
    (input : List String) (acts : List Action) (s : System)
    (hrun : run cfg (boot p c input) acts = some s) : DryRun s :=
  run_induction cfg DryRun (fun s t hs _ htr => dryRun_step cfg hdry s t hs htr) acts _ _
    (boot_dryRun p c input) hrun

/-! ### The pipeline -/

set_option maxRecDepth 100000

/-- The dry run `scheduleABC` proceeds to its end, in `finalDry`. -/
theorem run_scheduleABC_dry : run cfgDry (boot 8 100 abc) scheduleABC = some finalDry := by
  have h : (run cfgDry (boot 8 100 abc) scheduleABC).isSome = true := by decide
  unfold finalDry
  cases hr : run cfgDry (boot 8 100 abc) scheduleABC with
  | none => simp [hr] at h
  | some s => rfl

/-- C3: in dry-run mode `migrateObject` never calls `minioClient.PutObject` and returns
`nil` exactly when `hcp.GetObject` succeeded.  Hence, in every state of every dry run, no
`PutObject` call has been made at all; the identifiers sent on the failure queue, together
with those a worker holds on its failure path, are exactly the identifiers whose
resolution failed; and (for fewer than `2 ^ 64` identifiers) the failures counted by
`getFailCount()`, together with those a worker is about to count, are as many as the
resolutions that failed. -/
theorem migrateObject_dryRun (cfg : Config) (hdry : cfg.dryRun = true) :
    (∀ (sv : Services) (object : String),
      (∀ e ∈ (migrateObject cfg sv object).1, e.isPut = false) ∧
      ((migrateObject cfg sv object).2 = none ↔
        ∃ r oi, sv.GetObject object cfg.annotationName = .ok (r, oi))) ∧
    (∀ (p c : Int) (input : List String) (acts : List Action) (s : System),
      run cfg (boot p c input) acts = some s →
      (∀ e ∈ s.out, e.isPut = false) ∧
      (s.enqueued ++ held s.workers).Perm s.unresolved ∧
      (input.length < 2 ^ 64 →
        getFailCount s.m + total Worker.errPending s.workers = s.unresolved.length)) := by
  refine ⟨?_, ?_⟩
  · intro sv object
    refine ⟨(migrateObject_dry cfg sv object _ _ hdry rfl).1, ?_⟩
    unfold migrateObject
    cases hg : sv.GetObject object cfg.annotationName with
    | error err => simp
    | ok q =>
      obtain ⟨r, oi⟩ := q
      simp [hdry]
  · intro p c input acts s hrun
    have hd := run_dryRun cfg hdry p c input acts s hrun
    have hf := (run_failures cfg p c input acts s hrun).sent_or_held
    rw [hd.failed_unresolved] at hf
    refine ⟨hd.no_put, hf.symm, ?_⟩
    intro hn
    have herr := (run_inv cfg p c input acts s hn hrun).accounting.err_count
    rw [errTransfers_eq_length, hd.failed_unresolved] at herr
    simpa [getFailCount] using herr

/-- Witness for C3: the dry run `scheduleABC` over `abc`, in which the source fails to
resolve `"b"`: one failure counted, `"b"` sent on the failure queue, no `PutObject`. -/
theorem migrateObject_dryRun_witness :
    cfgDry.dryRun = true ∧
    run cfgDry (boot 8 100 abc) scheduleABC = some finalDry ∧
    finalDry.unresolved = ["b"] ∧ finalDry.enqueued = ["b"] ∧
    getFailCount finalDry.m = 1 ∧ getCount finalDry.m = 2 ∧
    ((∀ e ∈ finalDry.out, e.isPut = false) ∧
     (finalDry.enqueued ++ held finalDry.workers).Perm finalDry.unresolved ∧
     (abc.length < 2 ^ 64 →
       getFailCount finalDry.m + total Worker.errPending finalDry.workers
         = finalDry.unresolved.length)) :=
  ⟨rfl, run_scheduleABC_dry, by decide, by decide, by decide, by decide,
   (migrateObject_dryRun cfgDry rfl).2 8 100 abc scheduleABC finalDry run_scheduleABC_dry⟩

/-- C1: in every state of every run without cancellation over fewer than `2 ^ 64`
identifiers in which `finish` has returned, `getCount() + getFailCount()` is the number
of identifiers submitted, `getCount()` is the number of transfers that returned `nil`
and `getFailCount()` the number of transfers that returned an error. -/
theorem counts_after_finish (cfg : Config) (p c : Int) (input : List String)
    (acts : List Action) (s : System)
    (hrun : run cfg (boot p c input) acts = some s)
    (hret : s.main = Main.returned) (hnc : s.cancelled = false)
    (hn : input.length < 2 ^ 64) :
    getCount s.m + getFailCount s.m = input.length ∧
    getCount s.m = okTransfers s.transfers ∧
    getFailCount s.m = errTransfers s.transfers := by
  have hinv := run_inv cfg p c input acts s hn hrun
  have hdone := workers_done_of_pastWait s hinv.shutdown (by simp [hret, Main.pastWait])
  obtain ⟨t1, t2, t3, _, t5⟩ := totals_of_all_done s.workers hdone
  have hbuf : s.m.objectCh.buf.length = 0 := by
    cases hws : s.workers with
    | nil =>
      have h1 := hinv.drain.object_cap
      have h2 := hinv.drain.object_room
      simp only [hws, List.length_nil] at h1
      omega
    | cons w rest =>
      have hpos : 0 < total Worker.finished s.workers := by
        rw [t5, hws]
        simp
      simp [(hinv.drain.object_drained hnc hpos).2]
  have hacc := hinv.accounting.account
  have hok := hinv.accounting.ok_count
  have herr := hinv.accounting.err_count
  simp only [hret, Main.rest, List.length_nil] at hacc
  simp only [getCount, getFailCount]
  omega

/-- C8: in every state of every run (every interleaving, with or without cancellation),
if the failure queue is closed then every worker has returned; so a worker about to send
on the failure queue finds it open, and no panic has occurred. -/
theorem failed_queue_closed_after_workers (cfg : Config) (p c : Int) (input : List String)
    (acts : List Action) (s : System)
    (hrun : run cfg (boot p c input) acts = some s) :
    (s.m.failedCh.closed = true → ∀ w ∈ s.workers, w = Worker.done) ∧
    (∀ (i : Nat) (obj : String), s.workers[i]? = some (Worker.sending obj) →
      s.m.failedCh.closed = false) ∧
    (∀ msg, s.crashed ≠ some (Crash.panic msg)) := by
  have hs := run_shutdown cfg p c input acts s hrun
  have hall : s.m.failedCh.closed = true → ∀ w ∈ s.workers, w = Worker.done := by
    intro hcl
    refine all_done_of_total_live s.workers ?_
    rw [← hs.wg_live]
    exact hs.past_close (by rw [← hs.failed_closed]; exact hcl)
  refine ⟨hall, ?_, hs.no_panic⟩
  intro i obj hw
  cases hcl : s.m.failedCh.closed with
  | false => rfl
  | true =>
    have hmem : Worker.sending obj ∈ s.workers := List.getElem?_mem hw
    exact absurd (hall hcl _ hmem) (by simp)

/-- The run `scheduleABC` proceeds to its end, in `finalABC`. -/
theorem run_scheduleABC : run cfgReal (boot 8 100 abc) scheduleABC = some finalABC := by
  have h : (run cfgReal (boot 8 100 abc) scheduleABC).isSome = true := by decide
  unfold finalABC
  cases hr : run cfgReal (boot 8 100 abc) scheduleABC with
  | none => simp [hr] at h
  | some s => rfl

/-- Witness for C1: the run `scheduleABC` over `abc`, in which `"b"` fails. -/
theorem counts_after_finish_witness :
    run cfgReal (boot 8 100 abc) scheduleABC = some finalABC ∧
    finalABC.main = Main.returned ∧ finalABC.cancelled = false ∧ abc.length < 2 ^ 64 ∧
    (getCount finalABC.m + getFailCount finalABC.m = abc.length ∧
     getCount finalABC.m = okTransfers finalABC.transfers ∧
     getFailCount finalABC.m = errTransfers finalABC.transfers) :=
  ⟨run_scheduleABC, by decide, by decide, by decide,
   counts_after_finish cfgReal 8 100 abc scheduleABC finalABC run_scheduleABC
     (by decide) (by decide) (by decide)⟩

/-- Witness for C8: the state at the end of `scheduleABC`. -/
theorem failed_queue_closed_after_workers_witness :
    run cfgReal (boot 8 100 abc) scheduleABC = some finalABC ∧
    ((finalABC.m.failedCh.closed = true → ∀ w ∈ finalABC.workers, w = Worker.done) ∧
     (∀ (i : Nat) (obj : String), finalABC.workers[i]? = some (Worker.sending obj) →
        finalABC.m.failedCh.closed = false) ∧
     (∀ msg, finalABC.crashed ≠ some (Crash.panic msg))) :=
  ⟨run_scheduleABC,
   failed_queue_closed_after_workers cfgReal 8 100 abc scheduleABC finalABC run_scheduleABC⟩

/-- C2, the code at the failing input: in the run `scheduleToReturn` over `abc` (default
configuration, only `"b"` failing), without cancellation and without any I/O error,
`finish` has returned with `getFailCount() = 1` while the ledger file is still empty and
the record `"b"` is still in the failure queue: `finish` closes `failedCh` and returns
without waiting for the ledger goroutine. -/
theorem ledger_incomplete_when_finish_returns :
    (run cfgReal (boot 8 100 abc) scheduleToReturn).map
        (fun s => (s.main, s.cancelled, s.crashed, getFailCount s.m, s.ledgerFile,
                   s.m.failedCh.buf)) =
      some (Main.returned, false, none, 1, some "", ["b"]) := by
  rfl

/-- What the ledger does hold: in every state of every run without cancellation over fewer
than `2 ^ 64` identifiers in which `finish` has returned and the ledger goroutine, having
opened the file, has returned too, the file holds exactly the identifiers sent on the
failure queue, in the order of the sends, each followed by a newline; these are the
identifiers of the failed transfers, and their number is `getFailCount()`. -/
theorem ledger_after_writer_returns (cfg : Config) (p c : Int) (input : List String)
    (acts : List Action) (s : System) (text : String)
    (hrun : run cfg (boot p c input) acts = some s)
    (hret : s.main = Main.returned) (hwr : s.writer = Writer.done)
    (hfile : s.ledgerFile = some text) (hnc : s.cancelled = false)
    (hn : input.length < 2 ^ 64) :
    text = ledgerText s.enqueued ∧
    s.enqueued.Perm (failedIds s.transfers) ∧
    s.enqueued.length = getFailCount s.m := by
  have hinv := run_inv cfg p c input acts s hn hrun
  have hdone := workers_done_of_pastWait s hinv.shutdown (by simp [hret, Main.pastWait])
  obtain ⟨_, _, t3, t4, _⟩ := totals_of_all_done s.workers hdone
  have hempty := (hinv.ledger.writer_done hwr hnc (by simp [hfile])).2
  have hled := hinv.ledger.ledger text hfile
  have hsent := hinv.accounting.sent_count
  have hperm := (run_failures cfg p c input acts s hrun).sent_or_held
  simp only [hwr, Writer.pending, hempty, List.append_nil, ledgerText,
    String.append_empty] at hled
  simp only [held_all_done s.workers hdone, List.append_nil] at hperm
  simp only [getFailCount]
  exact ⟨hled, hperm.symm, by omega⟩

/-- The run `scheduleABC` as an instance of `ledger_after_writer_returns`: at its end the
ledger is `"b\n"`. -/
theorem ledger_after_writer_returns_witness :
    run cfgReal (boot 8 100 abc) scheduleABC = some finalABC ∧
    finalABC.main = Main.returned ∧ finalABC.writer = Writer.done ∧
    finalABC.ledgerFile = some "b\n" ∧ finalABC.cancelled = false ∧
    ("b\n" = ledgerText finalABC.enqueued ∧
     finalABC.enqueued.Perm (failedIds finalABC.transfers) ∧
     finalABC.enqueued.length = getFailCount finalABC.m) :=
  ⟨run_scheduleABC, by decide, by decide, by decide, by decide,
   ledger_after_writer_returns cfgReal 8 100 abc scheduleABC finalABC "b\n" run_scheduleABC
     (by decide) (by decide) (by decide) (by decide) (by decide)⟩

/-- C7, the code at the failing input: `os.OpenFile` fails and the transfer of `"b"`
fails.  The ledger goroutine logs a debug message and returns; the process is not
terminated; `finish` returns and logs one failure, while no ledger file was written and
the record `"b"` stays in the failure queue. -/
theorem open_failure_is_not_fatal :
    (run cfgReal (boot 8 100 ["b"]) scheduleNoLedger).map
        (fun s => (s.main, s.crashed, s.writer, getFailCount s.m, s.ledgerFile,
                   s.m.failedCh.buf, logLines s.out)) =
      some (Main.returned, none, Writer.done, 1, none, ["b"],
            ["error migrating object b: not found", "Migrated 0 objects, 1 failures"]) := by
  rfl

/-- A pool of returned workers has only returned workers at every index. -/
theorem getElem?_replicate_done (k j : Nat) :
    (List.replicate k Worker.done)[j]? = some Worker.done ∨
    (List.replicate k Worker.done)[j]? = none := by
  rw [List.getElem?_replicate]
  by_cases hj : j < k
  · exact Or.inl (if_pos hj)
  · exact Or.inr (if_neg hj)

/-- A worker that has returned, or does not exist, takes no step. -/
theorem workerStep_none_of_done (cfg : Config) (s : System) (i : Nat) (wa : WorkerAction)
    (h : s.workers[i]? = some Worker.done ∨ s.workers[i]? = none) :
    workerStep cfg s i wa = none := by
  unfold workerStep
  rcases h with h | h <;> rw [h]

/-- The run `scheduleCancel` proceeds to its end, in `stuck`. -/
theorem run_scheduleCancel :
    run cfgReal (boot 8 100 listing101) scheduleCancel = some stuck := by
  have h : (run cfgReal (boot 8 100 listing101) scheduleCancel).isSome = true := by decide
  unfold stuck
  cases hr : run cfgReal (boot 8 100 listing101) scheduleCancel with
  | none => simp [hr] at h
  | some s => rfl

/-- The state `stuck`, field by field. -/
theorem stuck_state :
    stuck.cancelled = true ∧ stuck.crashed = none ∧
    stuck.main = Main.waiting ∧ stuck.m.wg = 1 ∧
    stuck.workers = Worker.sending "obj100" :: List.replicate 99 Worker.done ∧
    stuck.m.failedCh.closed = false ∧ stuck.m.failedCh.cap = 100 ∧
    stuck.m.failedCh.buf.length = 100 ∧
    stuck.writer = Writer.done := by
  decide

/-- C9, the code at the failing input: after the run `scheduleCancel` (default
configuration, 101 failing identifiers, cancellation while the last one is being
transferred) the caller is in `finish` at `m.wg.Wait()`, worker 0 is blocked at
`m.failedCh <- "obj100"` on the full failure queue, every other worker and the ledger
goroutine have returned, and no step of any goroutine can proceed: `finish` never
returns. -/
theorem cancel_deadlocks_finish :
    run cfgReal (boot 8 100 listing101) scheduleCancel = some stuck ∧
    stuck.cancelled = true ∧ stuck.crashed = none ∧
    stuck.main = Main.waiting ∧ stuck.m.wg = 1 ∧
    stuck.workers = Worker.sending "obj100" :: List.replicate 99 Worker.done ∧
    stuck.m.failedCh.closed = false ∧ stuck.m.failedCh.cap = 100 ∧
    stuck.m.failedCh.buf.length = 100 ∧
    stuck.writer = Writer.done ∧
    (∀ a, step cfgReal stuck a = none) ∧
    (∀ acts t, run cfgReal stuck acts = some t → t.main ≠ Main.returned) := by
  obtain ⟨hcan, hcr, hmain, hwg, hws, hcl, hcap, hlen, hwr⟩ := stuck_state
  have hstep : ∀ a, step cfgReal stuck a = none := by
    intro a
    cases a with
    | cancel => simp [step, hcr, hcan]
    | main => simp [step, hcr, mainStep, finish, hmain, hwg]
    | worker i wa =>
      cases i with
      | zero => cases wa <;> simp [step, hcr, workerStep, hws, Chan.send, hcl, hcap, hlen]
      | succ j =>
        have hdone : stuck.workers[j + 1]? = some Worker.done ∨ stuck.workers[j + 1]? = none := by
          rw [hws, List.getElem?_cons_succ]
          exact getElem?_replicate_done 99 j
        simp [step, hcr, workerStep_none_of_done cfgReal stuck (j + 1) wa hdone]
    | writer wa => cases wa <;> simp [step, hcr, writerStep, hwr]
  refine ⟨run_scheduleCancel, hcan, hcr, hmain, hwg, hws, hcl, hcap, hlen, hwr, hstep, ?_⟩
  intro acts t hrun
  cases acts with
  | nil =>
    simp only [run, Option.some.injEq] at hrun
    subst hrun
    simp [hmain]
  | cons a rest => simp [run, hstep a] at hrun

/-- The same deadlock with one worker and two identifiers: at the end of
`scheduleCancelSmall` no step can proceed and `finish` is at `m.wg.Wait()`. -/
theorem cancel_deadlocks_finish_small :
    run cfgReal (boot 1 1 ["a", "b"]) scheduleCancelSmall = some stuckSmall ∧
    stuckSmall.cancelled = true ∧ stuckSmall.crashed = none ∧
    stuckSmall.main = Main.waiting ∧ stuckSmall.m.wg = 1 ∧
    stuckSmall.workers = [Worker.sending "b"] ∧
    stuckSmall.m.failedCh = { buf := ["a"], cap := 1, closed := false } ∧
    stuckSmall.writer = Writer.done ∧
    (∀ a, step cfgReal stuckSmall a = none) := by
  have hrun : run cfgReal (boot 1 1 ["a", "b"]) scheduleCancelSmall = some stuckSmall := by
    have h : (run cfgReal (boot 1 1 ["a", "b"]) scheduleCancelSmall).isSome = true := by
      decide
    unfold stuckSmall
    cases hr : run cfgReal (boot 1 1 ["a", "b"]) scheduleCancelSmall with
    | none => simp [hr] at h
    | some s => rfl
  have hcan : stuckSmall.cancelled = true := by decide
  have hcr : stuckSmall.crashed = none := by decide
  have hmain : stuckSmall.main = Main.waiting := by decide
  have hwg : stuckSmall.m.wg = 1 := by decide
  have hws : stuckSmall.workers = [Worker.sending "b"] := by decide
  have hch : stuckSmall.m.failedCh = { buf := ["a"], cap := 1, closed := false } := by
    decide
  have hwr : stuckSmall.writer = Writer.done := by decide
  refine ⟨hrun, hcan, hcr, hmain, hwg, hws, hch, hwr, ?_⟩
  intro a
  cases a with
  | cancel => simp [step, hcr, hcan]
  | main => simp [step, hcr, mainStep, finish, hmain, hwg]
  | worker i wa =>
    cases i with
    | zero => cases wa <;> simp [step, hcr, workerStep, hws, hch, Chan.send]
    | succ j => cases wa <;> simp [step, hcr, workerStep, hws]
  | writer wa => cases wa <;> simp [step, hcr, writerStep, hwr]

/-- In every state of every run, cancelled or not, over fewer than `2 ^ 64` identifiers,
`getCount() + getFailCount()` is at most the number of identifiers submitted so far. -/
theorem counts_le_submitted (cfg : Config) (p c : Int) (input : List String)
    (acts : List Action) (s : System)
    (hrun : run cfg (boot p c input) acts = some s) (hn : input.length < 2 ^ 64) :
    getCount s.m + getFailCount s.m + s.main.rest.length ≤ input.length := by
  have hacc := (run_inv cfg p c input acts s hn hrun).accounting.account
  simp only [getCount, getFailCount]
  omega

/-- A blocked process can only have its context cancelled, which unblocks nothing and
logs nothing. -/
theorem blocked_step (cfg : Config) (s t : System) (a : Action) (hb : Blocked s)
    (h : step cfg s a = some t) : Blocked t ∧ t.out = s.out := by
  obtain ⟨hcr, hmain, hwg, hws, hcl, hcap, hlen, hwr⟩ := hb
  cases a with
  | cancel =>
    simp only [step, hcr, Option.isSome_none, Bool.false_eq_true, if_false] at h
    split at h
    · simp at h
    · simp only [Option.some.injEq] at h
      subst h
      exact ⟨⟨rfl, hmain, hwg, hws, hcl, hcap, hlen, hwr⟩, rfl⟩
  | main => simp [step, hcr, mainStep, finish, hmain, hwg] at h
  | worker i wa =>
    cases i with
    | zero =>
      cases wa <;> simp [step, hcr, workerStep, hws, Chan.send, hcl, hcap, hlen] at h
    | succ j =>
      have hdone : s.workers[j + 1]? = some Worker.done ∨ s.workers[j + 1]? = none := by
        rw [hws, List.getElem?_cons_succ]
        exact getElem?_replicate_done 99 j
      simp [step, hcr, workerStep_none_of_done cfg s (j + 1) wa hdone] at h
  | writer wa => cases wa <;> simp [step, hcr, writerStep, hwr] at h

/-- From a blocked process no run gets anywhere: `finish` stays at `m.wg.Wait()` and
nothing is logged. -/
theorem blocked_run (cfg : Config) (acts : List Action) :
    ∀ s t, Blocked s → run cfg s acts = some t → Blocked t ∧ t.out = s.out := by
  induction acts with
  | nil =>
    intro s t hb h
    simp only [run, Option.some.injEq] at h
    subst h
    exact ⟨hb, rfl⟩
  | cons a rest ih =>
    intro s t hb h
    simp only [run, Option.bind_eq_some] at h
    obtain ⟨u, hu, hr⟩ := h
    obtain ⟨hbu, hou⟩ := blocked_step cfg s u a hb hu
    obtain ⟨hbt, hot⟩ := ih u t hbu hr
    exact ⟨hbt, hot.trans hou⟩

/-- The run `scheduleNoReader` proceeds to its end, in `stuckNoReader`, which is
blocked. -/
theorem run_scheduleNoReader :
    run cfgReal (boot 8 100 listing101) scheduleNoReader = some stuckNoReader ∧
    Blocked stuckNoReader := by
  refine ⟨?_, ?_⟩
  · have h : (run cfgReal (boot 8 100 listing101) scheduleNoReader).isSome = true := by
      decide
    unfold stuckNoReader
    cases hr : run cfgReal (boot 8 100 listing101) scheduleNoReader with
    | none => simp [hr] at h
    | some s => rfl
  · unfold Blocked
    decide

/-- C10, as stated, fails in three ways.  The dry run of `scheduleABC` over `abc` returns
from `finish` having logged the three per-object lines and no summary.  The summary of the
real run carries two numbers, the successes and the failures, and no total.  And in the
real run `scheduleNoReader`, without cancellation, the workers never drain: `finish` stays
at `m.wg.Wait()` for ever and the only lines ever logged are the 101 per-object errors. -/
theorem no_summary_in_dry_run :
    (run cfgDry (boot 8 100 abc) scheduleABC).map
        (fun s => (s.main, getCount s.m, getFailCount s.m, logLines s.out)) =
      some (Main.returned, 2, 1,
            ["a -> a", "error migrating object b: not found", "c -> c"]) ∧
    (run cfgReal (boot 8 100 abc) scheduleABC).map
        (fun s => (s.main, getCount s.m, getFailCount s.m, logLines s.out)) =
      some (Main.returned, 2, 1,
            ["error migrating object b: not found", "Migrated 2 objects, 1 failures"]) ∧
    (run cfgReal (boot 8 100 listing101) scheduleNoReader = some stuckNoReader ∧
     stuckNoReader.cancelled = false ∧ stuckNoReader.crashed = none ∧
     stuckNoReader.main = Main.waiting ∧
     logLines stuckNoReader.out =
       listing101.map (fun obj => "error migrating object " ++ obj ++ ": not found") ∧
     (∀ acts t, run cfgReal stuckNoReader acts = some t →
       t.main = Main.waiting ∧ t.out = stuckNoReader.out)) := by
  refine ⟨by rfl, by rfl, run_scheduleNoReader.1, by decide, by decide, by decide,
    by decide, ?_⟩
  intro acts t hrun
  obtain ⟨hb, ho⟩ := blocked_run cfgReal acts stuckNoReader t run_scheduleNoReader.2 hrun
  exact ⟨hb.2.1, ho⟩

/-- With every worker returned, the wait group is at zero. -/
theorem total_live_of_all_done (ws : List Worker) (h : ∀ w ∈ ws, w = Worker.done) :
    total Worker.live ws = 0 := by
  induction ws with
  | nil => rfl
  | cons w rest ih =>
    have hw : w = Worker.done := h w (List.mem_cons_self _ _)
    have := ih (fun x hx => h x (List.mem_cons_of_mem _ hx))
    subst hw
    simp only [total, List.map_cons, List.sum_cons, Worker.live] at this ⊢
    omega

/-- C10, amended: in every state of every run, (1) a live caller that has submitted
everything enters `finish` at once (closing `objectCh` never blocks); (2) once the workers
have drained, a live caller waiting in `finish` at `m.wg.Wait()` runs `finish` to its end
without blocking, leaves the counters as they are, and in real mode emits exactly the
summary `Migrated <getCount()> objects, <getFailCount()> failures`, in dry-run mode
nothing; (3) whenever `finish` has returned, every worker has returned and, in real mode,
the summary with the final values of the two counters has been logged. -/
theorem finish_summary (cfg : Config) (p c : Int) (input : List String)
    (acts : List Action) (s : System)
    (hrun : run cfg (boot p c input) acts = some s) :
    (s.crashed = none → s.main = Main.submit [] →
      ∃ t, step cfg s Action.main = some t ∧ t.main = Main.waiting) ∧
    (s.crashed = none → s.main = Main.waiting → (∀ w ∈ s.workers, w = Worker.done) →
      ∃ t, run cfg s [Action.main, Action.main, Action.main] = some t ∧
        t.main = Main.returned ∧ t.crashed = none ∧
        getCount t.m = getCount s.m ∧ getFailCount t.m = getFailCount s.m ∧
        t.out = s.out ++
          (if cfg.dryRun then []
           else [Event.logMsg ("Migrated " ++ toString (getCount s.m) ++ " objects, " ++
                   toString (getFailCount s.m) ++ " failures")])) ∧
    (s.main = Main.returned →
      (∀ w ∈ s.workers, w = Worker.done) ∧
      (cfg.dryRun = false →
        Event.logMsg ("Migrated " ++ toString (getCount s.m) ++ " objects, " ++
          toString (getFailCount s.m) ++ " failures") ∈ s.out)) := by
  have hinv := run_summary cfg p c input acts s hrun
  refine ⟨?_, ?_, ?_⟩
  · intro hcr hm
    have hcl : s.m.objectCh.closed = false := by
      rw [hinv.1.object_closed, hm]
      rfl
    simp [step, hcr, mainStep, finish, hm, Chan.close, hcl]
  · intro hcr hm hdone
    have hwg : s.m.wg = 0 := by
      rw [hinv.1.wg_live]
      exact total_live_of_all_done s.workers hdone
    have hcl : s.m.failedCh.closed = false := by
      rw [hinv.1.failed_closed, hm]
      rfl
    cases hd : cfg.dryRun with
    | true =>
      simp [run, step, hcr, mainStep, finish, hm, hwg, Chan.close, hcl, hd, getCount,
        getFailCount]
    | false =>
      simp [run, step, hcr, mainStep, finish, hm, hwg, Chan.close, hcl, hd, getCount,
        getFailCount, summary]
  · intro hret
    refine ⟨workers_done_of_pastWait s hinv.1 (by simp [hret, Main.pastWait]), ?_⟩
    intro hd
    exact hinv.2.summary_logged hret hd

/-- The run `scheduleToWait` proceeds to its end, in `drainedABC`. -/
theorem run_scheduleToWait :
    run cfgReal (boot 8 100 abc) scheduleToWait = some drainedABC := by
  have h : (run cfgReal (boot 8 100 abc) scheduleToWait).isSome = true := by decide
  unfold drainedABC
  cases hr : run cfgReal (boot 8 100 abc) scheduleToWait with
  | none => simp [hr] at h
  | some s => rfl

/-- Witness for C10, amended: the real run over `abc`, at the point where the caller waits
in `finish` with the workers drained (from there `finish` runs to its end and emits the
summary), and at the return of `finish`. -/
theorem finish_summary_witness :
    cfgReal.dryRun = false ∧
    run cfgReal (boot 8 100 abc) scheduleToWait = some drainedABC ∧
    drainedABC.crashed = none ∧ drainedABC.main = Main.waiting ∧
    (∀ w ∈ drainedABC.workers, w = Worker.done) ∧
    (∃ t, run cfgReal drainedABC [Action.main, Action.main, Action.main] = some t ∧
      t.main = Main.returned ∧ t.crashed = none ∧
      getCount t.m = getCount drainedABC.m ∧ getFailCount t.m = getFailCount drainedABC.m ∧
      t.out = drainedABC.out ++
        (if cfgReal.dryRun then []
         else [Event.logMsg ("Migrated " ++ toString (getCount drainedABC.m) ++
                 " objects, " ++ toString (getFailCount drainedABC.m) ++ " failures")])) ∧
    run cfgReal (boot 8 100 abc) scheduleABC = some finalABC ∧
    finalABC.main = Main.returned ∧
    ((∀ w ∈ finalABC.workers, w = Worker.done) ∧
     (cfgReal.dryRun = false →
       Event.logMsg ("Migrated " ++ toString (getCount finalABC.m) ++ " objects, " ++
         toString (getFailCount finalABC.m) ++ " failures") ∈ finalABC.out)) :=
  ⟨rfl, run_scheduleToWait, by decide, by decide, by decide,
   (finish_summary cfgReal 8 100 abc scheduleToWait drainedABC run_scheduleToWait).2.1
     (by decide) (by decide) (by decide),
   run_scheduleABC, by decide,
   (finish_summary cfgReal 8 100 abc scheduleABC finalABC run_scheduleABC).2.2 (by decide)⟩

end HcpToMinio
